import Mathlib

/-!
# aws-sgrule: the scan-and-replace pipeline of `main.go`

A shallow embedding of `main.go`.  The program has two tasks joined by an
unbuffered channel: `main` pages through the ingress rules of one security
group and sends the matching ones, `sgRuleUpdater` receives them and replaces
each by revoke / authorize / update-description.

Go strings are Lean strings: the texts are taken to be valid UTF-8, on which
the byte-wise prefix and substring tests of Go agree with the character-wise
ones used here.  Pointers of the SDK types (`*string`, `*bool`, `*int32`) are
`Option`s, read through `aws.ToString`, `aws.ToBool`, `aws.ToInt32`.  What a
task does is recorded as a list of `Event`s in program order.  The cloud
provider is a state machine over an arbitrary state type.

A send on the channel is a rendezvous: the scanning task gets past line 68
only when the updating task receives the rule, and the updating task receives
a rule only after it is done with the one before.  So the scanning loop is
given the number of rules the updating task will receive, which is bounded
exactly when that task panics at line 110.  What the program leaves to the
scheduler (how far the other task has come when a `log.Fatal` or a panic ends
the process, and which of the two comes first when both are due) is an input
of the run, `Schedule`.
-/

namespace SgRule

/-! ## Data model -/

/-- Go `error` values are carried by their message. -/
abbrev GoError := String

/-- The fields of `types.SecurityGroupRule` that `main.go` reads. -/
structure SecurityGroupRule where
  SecurityGroupRuleId : Option String := none
  GroupId : Option String := none
  IpProtocol : Option String := none
  FromPort : Option Int := none
  ToPort : Option Int := none
  CidrIpv4 : Option String := none
  Description : Option String := none
  IsEgress : Option Bool := none
  deriving DecidableEq, Repr

/-- The `aws.ToString` helper: the empty string for a nil pointer. -/
def ToString (p : Option String) : String := p.getD ""

/-- The `aws.ToBool` helper: false for a nil pointer. -/
def ToBool (p : Option Bool) : Bool := p.getD false

/-- The `aws.ToInt32` helper: zero for a nil pointer. -/
def ToInt32 (p : Option Int) : Int := p.getD 0

/-! ## `strings.HasPrefix` and `strings.Contains` -/

/-- The `strings.HasPrefix` function: `s` begins with `pre`. -/
def HasPrefix (s pre : String) : Bool := pre.data.isPrefixOf s.data

/-- First position at which `sub` occurs in `s`, counted in characters, or
`-1` when it does not occur (`strings.Index`). -/
def indexFrom (sub : List Char) : List Char → Int
  | [] => if sub.isPrefixOf [] then 0 else -1
  | c :: t =>
    if sub.isPrefixOf (c :: t) then 0
    else
      let k := indexFrom sub t
      if k < 0 then -1 else k + 1

/-- The `strings.Index` function. -/
def Index (s sub : String) : Int := indexFrom sub.data s.data

/-- The `strings.Contains` function: `Index(s, substr) >= 0`. -/
def Contains (s substr : String) : Bool := decide (Index s substr ≥ 0)

/-! ## Events -/

/-- One operand of a `log.Println` call. -/
inductive LogArg where
  | str (s : String)
  | int (n : Int)
  deriving DecidableEq, Repr

/-- The `ec2.RevokeSecurityGroupIngressInput` fields set by the program. -/
structure RevokeSecurityGroupIngressInput where
  GroupId : Option String
  SecurityGroupRuleIds : List String
  deriving DecidableEq, Repr

/-- An element of `IpPermission.IpRanges`. -/
structure IpRange where
  CidrIp : Option String := none
  Description : Option String := none
  deriving DecidableEq, Repr

/-- The `types.IpPermission` structure, the only place of an authorize request
that can carry a description. -/
structure IpPermission where
  IpProtocol : Option String := none
  FromPort : Option Int := none
  ToPort : Option Int := none
  IpRanges : List IpRange := []
  deriving DecidableEq, Repr

/-- The `ec2.AuthorizeSecurityGroupIngressInput` structure; `IpPermissions` is
never set by the program and stays empty. -/
structure AuthorizeSecurityGroupIngressInput where
  GroupId : Option String
  IpProtocol : Option String
  FromPort : Option Int
  ToPort : Option Int
  CidrIp : Option String
  IpPermissions : List IpPermission := []
  deriving DecidableEq, Repr

/-- The `ec2.AuthorizeSecurityGroupIngressOutput` field the program reads. -/
structure AuthorizeSecurityGroupIngressOutput where
  SecurityGroupRules : List SecurityGroupRule
  deriving DecidableEq, Repr

/-- The `types.SecurityGroupRuleDescription` structure. -/
structure SecurityGroupRuleDescription where
  SecurityGroupRuleId : Option String
  Description : Option String
  deriving DecidableEq, Repr

/-- The `ec2.UpdateSecurityGroupRuleDescriptionsIngressInput` structure. -/
structure UpdateSecurityGroupRuleDescriptionsIngressInput where
  GroupId : Option String
  SecurityGroupRuleDescriptions : List SecurityGroupRuleDescription
  deriving DecidableEq, Repr

/-- What a task does, in program order. -/
inductive Event where
  /-- A `log.Println` line. -/
  | log (args : List LogArg)
  /-- A `paginator.NextPage` call. -/
  | nextPage
  /-- A send `sgRuleChannel <- r`. -/
  | send (r : SecurityGroupRule)
  /-- The `close(sgRuleChannel)` statement. -/
  | close
  /-- A `log.Fatal(err)` call: the process exits with status 1. -/
  | fatal (e : GoError)
  /-- A `client.RevokeSecurityGroupIngress` call. -/
  | revoke (inp : RevokeSecurityGroupIngressInput)
  /-- A `client.AuthorizeSecurityGroupIngress` call. -/
  | authorize (inp : AuthorizeSecurityGroupIngressInput)
  /-- A `client.UpdateSecurityGroupRuleDescriptionsIngress` call. -/
  | updateDescriptions (inp : UpdateSecurityGroupRuleDescriptionsIngressInput)
  /-- The send `done <- true`. -/
  | done
  deriving DecidableEq, Repr

/-! ## The scanning task (`main`, lines 60-73) -/

/-- The condition of the `if` at lines 66-67. -/
def ruleMatches (ruleStartsWith ruleContains : String) (r : SecurityGroupRule) : Bool :=
  !ToBool r.IsEgress &&
    ((ruleStartsWith != "" && HasPrefix (ToString r.Description) ruleStartsWith) ||
     (ruleContains != "" && Contains (ToString r.Description) ruleContains))

/-- Result of the inner loop over one page. -/
structure PageScan where
  events : List Event
  /-- How many more rules the updater will receive; `none` when it receives
  every rule sent to it. -/
  receives : Option Nat
  /-- The loop is stuck in a send that is never received. -/
  blocked : Bool

/-- The inner loop, lines 65-70: the rules of one page, in order.  The channel
is unbuffered, so the send at line 68 returns only when the updater receives
the rule; `receives` tells how many rules the updater will still receive, and
a send beyond that never returns. -/
def scanPage (ruleStartsWith ruleContains : String) :
    Option Nat → List SecurityGroupRule → PageScan
  | receives, [] => { events := [], receives := receives, blocked := false }
  | receives, r :: rs =>
    if ruleMatches ruleStartsWith ruleContains r then
      match receives with
      | some 0 => { events := [], receives := some 0, blocked := true }
      | some (k + 1) =>
        let rest := scanPage ruleStartsWith ruleContains (some k) rs
        { rest with events := Event.send r :: rest.events }
      | none =>
        let rest := scanPage ruleStartsWith ruleContains none rs
        { rest with events := Event.send r :: rest.events }
    else scanPage ruleStartsWith ruleContains receives rs

/-- What `paginator.NextPage` returns: an error, or the rules of the page. -/
abbrev PageResult := Except GoError (List SecurityGroupRule)

/-- The paginator: the results its successive `NextPage` calls will return.
`HasMorePages` holds while one is left. -/
abbrev Paginator := List PageResult

/-- How the scanning loop ends. -/
inductive ScanOutcome where
  /-- All pages read and the channel closed. -/
  | closed
  /-- The `log.Fatal` at line 63. -/
  | fatal (e : GoError)
  /-- Stuck in the send at line 68: the updater receives no more. -/
  | blocked
  deriving DecidableEq, Repr

/-- Result of the scanning loop. -/
structure ScanResult where
  events : List Event
  outcome : ScanOutcome
  /-- The pages never asked for. -/
  unfetched : Paginator

/-- The outer loop and the close, lines 60-72, against an updater that
receives `receives` more rules (`none`: every rule sent to it). -/
def scanner (ruleStartsWith ruleContains : String) : Option Nat → Paginator → ScanResult
  | _, [] => { events := [Event.close], outcome := ScanOutcome.closed, unfetched := [] }
  | _, Except.error e :: rest =>
    { events := [Event.nextPage, Event.fatal e], outcome := ScanOutcome.fatal e,
      unfetched := rest }
  | receives, Except.ok page :: rest =>
    let pg := scanPage ruleStartsWith ruleContains receives page
    if pg.blocked then
      { events := Event.nextPage :: pg.events, outcome := ScanOutcome.blocked,
        unfetched := rest }
    else
      let res := scanner ruleStartsWith ruleContains pg.receives rest
      { res with events := Event.nextPage :: (pg.events ++ res.events) }

/-- The rules sent on the channel, in order. -/
def sentRules : List Event → List SecurityGroupRule
  | [] => []
  | Event.send r :: es => r :: sentRules es
  | _ :: es => sentRules es

/-- Number of `NextPage` calls. -/
def pageFetches (es : List Event) : Nat := es.count Event.nextPage

/-! ## The cloud provider -/

/-- The three provider calls of the updater, as a state machine over the
provider's state: each call returns its result and the state after it. -/
structure Provider (σ : Type) where
  revoke : σ → RevokeSecurityGroupIngressInput → Except GoError Unit × σ
  authorize : σ → AuthorizeSecurityGroupIngressInput →
    Except GoError AuthorizeSecurityGroupIngressOutput × σ
  updateDescriptions : σ → UpdateSecurityGroupRuleDescriptionsIngressInput →
    Except GoError Unit × σ

/-! ## The updating task (`sgRuleUpdater`, lines 76-129) -/

/-- One pass through the loop body. -/
structure RuleRun (σ : Type) where
  events : List Event
  state : σ
  /-- The index expression at line 110 was out of range. -/
  panicked : Bool

/-- The `log.Println("Updating", ...)` line, lines 78-84. -/
def updatingLine (r : SecurityGroupRule) : Event :=
  Event.log [LogArg.str "Updating",
    LogArg.str (ToString r.SecurityGroupRuleId),
    LogArg.str (ToString r.IpProtocol),
    LogArg.int (ToInt32 r.FromPort),
    LogArg.int (ToInt32 r.ToPort),
    LogArg.str (ToString r.CidrIpv4),
    LogArg.str (ToString r.Description)]

/-- The request built at lines 89-92. -/
def revokeInput (r : SecurityGroupRule) : RevokeSecurityGroupIngressInput :=
  { GroupId := r.GroupId, SecurityGroupRuleIds := [ToString r.SecurityGroupRuleId] }

/-- The request built at lines 99-105. -/
def authorizeInput (r : SecurityGroupRule) (newCidrIpv4 : String) :
    AuthorizeSecurityGroupIngressInput :=
  { GroupId := r.GroupId, IpProtocol := r.IpProtocol, FromPort := r.FromPort,
    ToPort := r.ToPort, CidrIp := some newCidrIpv4 }

/-- The request built at lines 113-121. -/
def updateInput (r : SecurityGroupRule) (newSgRuleId : Option String) :
    UpdateSecurityGroupRuleDescriptionsIngressInput :=
  { GroupId := r.GroupId,
    SecurityGroupRuleDescriptions :=
      [{ SecurityGroupRuleId := newSgRuleId, Description := r.Description }] }

/-- The error line of line 94. -/
def revokeErrorLine (r : SecurityGroupRule) : Event :=
  Event.log [LogArg.str "ERROR", LogArg.str "Unable to revoke existing rule",
    LogArg.str (ToString r.SecurityGroupRuleId)]

/-- The line of line 97. -/
def revokedLine (r : SecurityGroupRule) : Event :=
  Event.log [LogArg.str "Revoked", LogArg.str (ToString r.CidrIpv4),
    LogArg.str "under existing rule", LogArg.str (ToString r.SecurityGroupRuleId)]

/-- The error line of line 107. -/
def authorizeErrorLine : Event :=
  Event.log [LogArg.str "ERROR", LogArg.str "Unable to authorize new rule"]

/-- The line of line 111. -/
def authorizedLine (newCidrIpv4 : String) (newSgRuleId : Option String) : Event :=
  Event.log [LogArg.str "Authorized", LogArg.str newCidrIpv4,
    LogArg.str "under new rule", LogArg.str (ToString newSgRuleId)]

/-- The error line of line 123. -/
def updateErrorLine : Event :=
  Event.log [LogArg.str "ERROR", LogArg.str "Unable to update rule description"]

/-- The line of line 126. -/
def updatedLine (newSgRuleId : Option String) : Event :=
  Event.log [LogArg.str "Updated Description", LogArg.str (ToString newSgRuleId)]

/-- The loop body, lines 78-126, for one received rule. -/
def updateRule {σ : Type} (dryRun : Bool) (client : Provider σ) (newCidrIpv4 : String)
    (s : σ) (r : SecurityGroupRule) : RuleRun σ :=
  if dryRun then
    { events := [updatingLine r], state := s, panicked := false }
  else
    match client.revoke s (revokeInput r) with
    | (Except.error _, s1) =>
      { events := [updatingLine r, Event.revoke (revokeInput r), revokeErrorLine r],
        state := s1, panicked := false }
    | (Except.ok _, s1) =>
      match client.authorize s1 (authorizeInput r newCidrIpv4) with
      | (Except.error _, s2) =>
        { events := [updatingLine r, Event.revoke (revokeInput r), revokedLine r,
            Event.authorize (authorizeInput r newCidrIpv4), authorizeErrorLine],
          state := s2, panicked := false }
      | (Except.ok resp, s2) =>
        match resp.SecurityGroupRules with
        | [] =>
          { events := [updatingLine r, Event.revoke (revokeInput r), revokedLine r,
              Event.authorize (authorizeInput r newCidrIpv4)],
            state := s2, panicked := true }
        | first :: _ =>
          match client.updateDescriptions s2 (updateInput r first.SecurityGroupRuleId) with
          | (Except.error _, s3) =>
            { events := [updatingLine r, Event.revoke (revokeInput r), revokedLine r,
                Event.authorize (authorizeInput r newCidrIpv4),
                authorizedLine newCidrIpv4 first.SecurityGroupRuleId,
                Event.updateDescriptions (updateInput r first.SecurityGroupRuleId),
                updateErrorLine],
              state := s3, panicked := false }
          | (Except.ok _, s3) =>
            { events := [updatingLine r, Event.revoke (revokeInput r), revokedLine r,
                Event.authorize (authorizeInput r newCidrIpv4),
                authorizedLine newCidrIpv4 first.SecurityGroupRuleId,
                Event.updateDescriptions (updateInput r first.SecurityGroupRuleId),
                updatedLine first.SecurityGroupRuleId],
              state := s3, panicked := false }

/-- How the updating task ends. -/
inductive UpdaterOutcome where
  /-- The channel was closed and `done <- true` was sent. -/
  | done
  /-- A run-time panic at line 110: the process dies. -/
  | panicked
  /-- Waiting for a rule on a channel that is never closed. -/
  | blocked
  deriving DecidableEq, Repr

/-- Result of the updating task. -/
structure UpdaterResult (σ : Type) where
  events : List Event
  state : σ
  outcome : UpdaterOutcome

/-- The `for r := range sgRuleChannel` loop and the final send, lines 77-128.
The channel delivers `rules` in order; `closed` tells whether it is closed
after them. -/
def sgRuleUpdater {σ : Type} (dryRun : Bool) (client : Provider σ) (newCidrIpv4 : String)
    (closed : Bool) : σ → List SecurityGroupRule → UpdaterResult σ
  | s, [] =>
    if closed then { events := [Event.done], state := s, outcome := UpdaterOutcome.done }
    else { events := [], state := s, outcome := UpdaterOutcome.blocked }
  | s, r :: rs =>
    let one := updateRule dryRun client newCidrIpv4 s r
    if one.panicked then
      { events := one.events, state := one.state, outcome := UpdaterOutcome.panicked }
    else
      let rest := sgRuleUpdater dryRun client newCidrIpv4 closed one.state rs
      { rest with events := one.events ++ rest.events }

/-! ## Public-IP lookup (`queryPublicIP`, lines 131-143) -/

/-- What `ioutil.ReadAll(resp.Body)` returns: the bytes read and the error. -/
structure BodyRead where
  raw : String
  err : Option GoError
  deriving DecidableEq, Repr

/-- What `http.Get` does: a transport error, or a response of any status. -/
inductive HttpOutcome where
  | transportError (e : GoError)
  | response (statusCode : Nat) (body : BodyRead)
  deriving DecidableEq, Repr

/-- The `queryPublicIP` function: the address and the error (`none` is nil). -/
def queryPublicIP : HttpOutcome → String × Option GoError
  | HttpOutcome.transportError e => ("", some e)
  | HttpOutcome.response _ body => (body.raw, body.err)

/-! ## The whole run (`main`, lines 22-74) -/

/-- The command-line flags. -/
structure Flags where
  sgId : String := ""
  ruleStartsWith : String := ""
  ruleContains : String := ""
  dryRun : Bool := false
  deriving DecidableEq, Repr

/-- What the Go scheduler decides when one task tears the process down (a
`log.Fatal`, a panic) while the other is still running. -/
structure Schedule where
  /-- When the scanning task is about to call `log.Fatal` and the updating
  task is about to panic, the `log.Fatal` comes first. -/
  fatalFirst : Bool := false
  /-- How many of the events the other task could have reached since its last
  rendezvous it had not reached yet when the process died. -/
  lag : Nat := 0
  deriving DecidableEq, Repr

/-- Everything outside the program that a run depends on. -/
structure World (σ : Type) where
  http : HttpOutcome
  /-- The error of `config.LoadDefaultConfig`, if any. -/
  configError : Option GoError
  pages : Paginator
  client : Provider σ
  init : σ
  /-- How the scheduler settles what the program leaves open. -/
  schedule : Schedule := {}

/-- How the process ends. -/
inductive Exit where
  /-- The `flag.Usage(); os.Exit(1)` branch. -/
  | usage
  /-- A `log.Fatal`. -/
  | fatal (e : GoError)
  /-- A run-time panic. -/
  | panic
  /-- Return from `main`. -/
  | zero
  deriving DecidableEq, Repr

/-- The exit status of the process. -/
def Exit.code : Exit → Nat
  | Exit.usage => 1
  | Exit.fatal _ => 1
  | Exit.panic => 2
  | Exit.zero => 0

/-- A run of the program: how it ends, what the main task and the updating
task did, and the provider state it leaves. -/
structure Run (σ : Type) where
  exit : Exit
  mainEvents : List Event
  workerEvents : List Event
  state : σ

/-- The number of rules the updater has received when it panics at line 110,
`none` when it handles all of `rules` without a panic. -/
def panicAfter {σ : Type} (dryRun : Bool) (client : Provider σ) (newCidrIpv4 : String) :
    σ → List SecurityGroupRule → Option Nat
  | _, [] => none
  | s, r :: rs =>
    let one := updateRule dryRun client newCidrIpv4 s r
    if one.panicked then some 1
    else (panicAfter dryRun client newCidrIpv4 one.state rs).map (· + 1)

/-- The provider state after the provider calls of a trace, each counted from
the moment it is issued. -/
def replay {σ : Type} (client : Provider σ) : σ → List Event → σ
  | s, [] => s
  | s, Event.revoke inp :: es => replay client (client.revoke s inp).2 es
  | s, Event.authorize inp :: es => replay client (client.authorize s inp).2 es
  | s, Event.updateDescriptions inp :: es =>
    replay client (client.updateDescriptions s inp).2 es
  | s, _ :: es => replay client s es

/-- Number of events after the last send of a trace. -/
def sinceLastSend (es : List Event) : Nat :=
  (es.reverse.takeWhile fun e =>
    match e with
    | Event.send _ => false
    | _ => true).length

/-- The trace of the scanning task when the updating task panics: all it did
up to its last send, and of the `furthest` it can do after that send all but
the last `lag` events. -/
def scannerAtPanic (lag : Nat) (furthest : List Event) : List Event :=
  furthest.take (furthest.length - min lag (sinceLastSend furthest))

/-- The trace of the updating task when the scanning task calls `log.Fatal`:
the rules received before the last one are done with, and of the pass for the
last one all but the last `lag` events have happened. -/
def workerAtFatal {σ : Type} (dryRun : Bool) (client : Provider σ) (newCidrIpv4 : String)
    (lag : Nat) (s : σ) (received : List SecurityGroupRule) : List Event :=
  match received.getLast? with
  | none => []
  | some r =>
    let earlier := sgRuleUpdater dryRun client newCidrIpv4 false s received.dropLast
    let last := updateRule dryRun client newCidrIpv4 earlier.state r
    earlier.events ++ last.events.take (last.events.length - lag)

/-- The `log.Println("Public IP:", publicIP)` line, line 42. -/
def publicIPLine (publicIP : String) : Event :=
  Event.log [LogArg.str "Public IP:", LogArg.str publicIP]

/-- The two tasks from the `go` statement at line 50 to the end of the
process.  The scanning task sends each matching rule and waits until the
updating task receives it; the updating task handles the rules in the order
received.  If the updating task panics while handling its j-th rule it
receives no more, and the scanning task gets no further than its next send.
The run ends with the return from `main` after `<-done`, with the `log.Fatal`
of a failed page fetch, or with the panic; when a task dies with the process,
`schedule` tells how far it had come. -/
def bothTasks {σ : Type} (f : Flags) (w : World σ) (publicIP : String) : Run σ :=
  let newCidrIpv4 := publicIP ++ "/32"
  let offered := sentRules (scanner f.ruleStartsWith f.ruleContains none w.pages).events
  let sc := scanner f.ruleStartsWith f.ruleContains
    (panicAfter f.dryRun w.client newCidrIpv4 w.init offered) w.pages
  let up := sgRuleUpdater f.dryRun w.client newCidrIpv4
    (decide (sc.outcome = ScanOutcome.closed)) w.init (sentRules sc.events)
  let atFatal (e : GoError) : Run σ :=
    let worker := workerAtFatal f.dryRun w.client newCidrIpv4 w.schedule.lag w.init
      (sentRules sc.events)
    { exit := Exit.fatal e, mainEvents := publicIPLine publicIP :: sc.events,
      workerEvents := worker, state := replay w.client w.init worker }
  let atPanic (furthest : List Event) : Run σ :=
    { exit := Exit.panic,
      mainEvents := publicIPLine publicIP :: scannerAtPanic w.schedule.lag furthest,
      workerEvents := up.events, state := replay w.client w.init up.events }
  match up.outcome, sc.outcome with
  | UpdaterOutcome.panicked, ScanOutcome.fatal e =>
    if w.schedule.fatalFirst then atFatal e else atPanic sc.events.dropLast
  | UpdaterOutcome.panicked, _ => atPanic sc.events
  | _, ScanOutcome.fatal e => atFatal e
  | _, _ =>
    { exit := Exit.zero, mainEvents := publicIPLine publicIP :: sc.events,
      workerEvents := up.events, state := replay w.client w.init up.events }

/-- The `main` function. -/
def main {σ : Type} (f : Flags) (w : World σ) : Run σ :=
  if f.sgId = "" ∨ (f.ruleStartsWith = "" ∧ f.ruleContains = "") then
    { exit := Exit.usage, mainEvents := [], workerEvents := [], state := w.init }
  else
    match queryPublicIP w.http with
    | (_, some err) =>
      { exit := Exit.fatal err, mainEvents := [Event.fatal err], workerEvents := [],
        state := w.init }
    | (publicIP, none) =>
      match w.configError with
      | some err =>
        { exit := Exit.fatal err, mainEvents := [publicIPLine publicIP, Event.fatal err],
          workerEvents := [], state := w.init }
      | none => bothTasks f w publicIP

/-! ## Reading traces -/

/-- The provider calls a task can issue. -/
inductive Call where
  | revoke
  | authorize
  | updateDescriptions
  deriving DecidableEq, Repr

/-- The provider calls of a trace, in order. -/
def calls : List Event → List Call
  | [] => []
  | Event.revoke _ :: es => Call.revoke :: calls es
  | Event.authorize _ :: es => Call.authorize :: calls es
  | Event.updateDescriptions _ :: es => Call.updateDescriptions :: calls es
  | _ :: es => calls es

/-- The rule identifiers named by the revoke calls of a trace, in order. -/
def revokedIds : List Event → List (List String)
  | [] => []
  | Event.revoke inp :: es => inp.SecurityGroupRuleIds :: revokedIds es
  | _ :: es => revokedIds es

/-! ## Specification-side definitions and test doubles -/

/-- The match condition of the specification: not an egress rule, and the
description starts with a non-empty prefix or contains a non-empty substring. -/
def Eligible (pre sub : String) (r : SecurityGroupRule) : Prop :=
  r.IsEgress.getD false = false ∧
    ((pre ≠ "" ∧ ∃ t : String, r.Description.getD "" = pre ++ t) ∨
     (sub ≠ "" ∧ ∃ a b : String, r.Description.getD "" = a ++ sub ++ b))

/-- The events of the scanning loop for one fetched page. -/
def pageBlock (pre sub : String) (page : List SecurityGroupRule) : List Event :=
  Event.nextPage :: (page.filter (ruleMatches pre sub)).map Event.send

/-- The five ways through the loop body when `dryRun` is false, each with the
provider answers that select it. -/
inductive RulePath {σ : Type} (client : Provider σ) (cidr : String) (s : σ)
    (r : SecurityGroupRule) : RuleRun σ → Prop where
  | revokeFailed (e : GoError) (s1 : σ)
      (h1 : client.revoke s (revokeInput r) = (Except.error e, s1)) :
      RulePath client cidr s r
        { events := [updatingLine r, Event.revoke (revokeInput r), revokeErrorLine r],
          state := s1, panicked := false }
  | authorizeFailed (s1 : σ) (e : GoError) (s2 : σ)
      (h1 : client.revoke s (revokeInput r) = (Except.ok (), s1))
      (h2 : client.authorize s1 (authorizeInput r cidr) = (Except.error e, s2)) :
      RulePath client cidr s r
        { events := [updatingLine r, Event.revoke (revokeInput r), revokedLine r,
            Event.authorize (authorizeInput r cidr), authorizeErrorLine],
          state := s2, panicked := false }
  | emptyResponse (s1 : σ) (resp : AuthorizeSecurityGroupIngressOutput) (s2 : σ)
      (h1 : client.revoke s (revokeInput r) = (Except.ok (), s1))
      (h2 : client.authorize s1 (authorizeInput r cidr) = (Except.ok resp, s2))
      (h3 : resp.SecurityGroupRules = []) :
      RulePath client cidr s r
        { events := [updatingLine r, Event.revoke (revokeInput r), revokedLine r,
            Event.authorize (authorizeInput r cidr)],
          state := s2, panicked := true }
  | updateFailed (s1 : σ) (resp : AuthorizeSecurityGroupIngressOutput) (s2 : σ)
      (first : SecurityGroupRule) (others : List SecurityGroupRule) (e : GoError) (s3 : σ)
      (h1 : client.revoke s (revokeInput r) = (Except.ok (), s1))
      (h2 : client.authorize s1 (authorizeInput r cidr) = (Except.ok resp, s2))
      (h3 : resp.SecurityGroupRules = first :: others)
      (h4 : client.updateDescriptions s2 (updateInput r first.SecurityGroupRuleId)
        = (Except.error e, s3)) :
      RulePath client cidr s r
        { events := [updatingLine r, Event.revoke (revokeInput r), revokedLine r,
            Event.authorize (authorizeInput r cidr),
            authorizedLine cidr first.SecurityGroupRuleId,
            Event.updateDescriptions (updateInput r first.SecurityGroupRuleId),
            updateErrorLine],
          state := s3, panicked := false }
  | updated (s1 : σ) (resp : AuthorizeSecurityGroupIngressOutput) (s2 : σ)
      (first : SecurityGroupRule) (others : List SecurityGroupRule) (s3 : σ)
      (h1 : client.revoke s (revokeInput r) = (Except.ok (), s1))
      (h2 : client.authorize s1 (authorizeInput r cidr) = (Except.ok resp, s2))
      (h3 : resp.SecurityGroupRules = first :: others)
      (h4 : client.updateDescriptions s2 (updateInput r first.SecurityGroupRuleId)
        = (Except.ok (), s3)) :
      RulePath client cidr s r
        { events := [updatingLine r, Event.revoke (revokeInput r), revokedLine r,
            Event.authorize (authorizeInput r cidr),
            authorizedLine cidr first.SecurityGroupRuleId,
            Event.updateDescriptions (updateInput r first.SecurityGroupRuleId),
            updatedLine first.SecurityGroupRuleId],
          state := s3, panicked := false }

/-- A test double for the provider, for the examples: each call fails with
the given error when one is given, a successful authorize answers with the
rules `created`, and the state counts the calls that succeeded. -/
def stubClient (revokeErr authorizeErr updateErr : Option GoError)
    (created : List SecurityGroupRule) : Provider Nat where
  revoke := fun n _ =>
    match revokeErr with
    | some e => (Except.error e, n)
    | none => (Except.ok (), n + 1)
  authorize := fun n _ =>
    match authorizeErr with
    | some e => (Except.error e, n)
    | none => (Except.ok { SecurityGroupRules := created }, n + 1)
  updateDescriptions := fun n _ =>
    match updateErr with
    | some e => (Except.error e, n)
    | none => (Except.ok (), n + 1)

/-- The rule `r1` of the end-to-end scenario. -/
def ruleR1 : SecurityGroupRule :=
  { SecurityGroupRuleId := some "r1", GroupId := some "sg-1", IpProtocol := some "tcp",
    FromPort := some 22, ToPort := some 22, CidrIpv4 := some "1.2.3.4/32",
    Description := some "home-ssh", IsEgress := some false }

/-- The rule `r2` of the end-to-end scenario. -/
def ruleR2 : SecurityGroupRule :=
  { SecurityGroupRuleId := some "r2", GroupId := some "sg-1",
    Description := some "office-ssh", IsEgress := some false }

/-- The rule a successful authorize of the scenario answers with. -/
def ruleNew : SecurityGroupRule :=
  { SecurityGroupRuleId := some "r9", GroupId := some "sg-1", IpProtocol := some "tcp",
    FromPort := some 22, ToPort := some 22, CidrIpv4 := some "9.9.9.9/32",
    IsEgress := some false }

/-- The text `log.Println` writes for its operands (after the time stamp):
the operands separated by blanks, then a newline. -/
def Println (args : List LogArg) : String :=
  String.intercalate " " (args.map fun a =>
    match a with
    | LogArg.str t => t
    | LogArg.int n => toString n) ++ "\n"

/-- The text of a log line names the identifier `id`. -/
def lineNames (id : String) : Event → Bool
  | Event.log args => Contains (Println args) id
  | _ => false

/-! ## String lemmas -/

theorem hasPrefix_iff (s pre : String) :
    HasPrefix s pre = true ↔ ∃ t : String, s = pre ++ t := by
  unfold HasPrefix
  rw [List.isPrefixOf_iff_prefix]
  constructor
  · rintro ⟨t, ht⟩
    exact ⟨⟨t⟩, String.ext (by rw [String.data_append, ht])⟩
  · rintro ⟨t, rfl⟩
    exact ⟨t.data, (String.data_append pre t).symm⟩

theorem indexFrom_nonneg_iff (sub l : List Char) : 0 ≤ indexFrom sub l ↔ sub <:+: l := by
  induction l with
  | nil =>
    unfold indexFrom
    by_cases h : sub.isPrefixOf [] = true
    · simp only [h, if_true, le_refl, true_iff]
      exact (List.isPrefixOf_iff_prefix.mp h).isInfix
    · simp only [h, if_false]
      constructor
      · intro h0; exact absurd h0 (by decide)
      · intro hi
        exact absurd
          (List.isPrefixOf_iff_prefix.mpr (List.infix_nil.mp hi ▸ List.prefix_refl _)) h
  | cons c t ih =>
    unfold indexFrom
    by_cases h : sub.isPrefixOf (c :: t) = true
    · simp only [h, if_true, le_refl, true_iff]
      exact (List.isPrefixOf_iff_prefix.mp h).isInfix
    · simp only [h, if_false]
      rw [List.infix_cons_iff]
      by_cases hk : indexFrom sub t < 0
      · simp only [hk, if_true]
        constructor
        · intro h0; exact absurd h0 (by decide)
        · rintro (hp | hi)
          · exact absurd (List.isPrefixOf_iff_prefix.mpr hp) h
          · have := ih.mpr hi; omega
      · simp only [hk, if_false]
        constructor
        · intro _; exact Or.inr (ih.mp (by omega))
        · intro _; omega

theorem contains_iff (s sub : String) :
    Contains s sub = true ↔ ∃ a b : String, s = a ++ sub ++ b := by
  unfold Contains Index
  rw [decide_eq_true_iff, ge_iff_le, indexFrom_nonneg_iff]
  constructor
  · rintro ⟨a, b, hab⟩
    exact ⟨⟨a⟩, ⟨b⟩, String.ext (by simp only [String.data_append, hab])⟩
  · rintro ⟨a, b, rfl⟩
    exact ⟨a.data, b.data, by simp only [String.data_append]⟩

/-! ## The scanning task -/

theorem ruleMatches_iff (pre sub : String) (r : SecurityGroupRule) :
    ruleMatches pre sub r = true ↔ Eligible pre sub r := by
  unfold ruleMatches Eligible ToBool ToString
  simp only [Bool.and_eq_true, Bool.or_eq_true, Bool.not_eq_true', bne_iff_ne, ne_eq,
    hasPrefix_iff, contains_iff]

theorem sentRules_append (xs ys : List Event) :
    sentRules (xs ++ ys) = sentRules xs ++ sentRules ys := by
  induction xs with
  | nil => rfl
  | cons e es ih => cases e <;> simp [sentRules, ih]

theorem scanPage_eq (pre sub : String) (page : List SecurityGroupRule) :
    scanPage pre sub none page
      = { events := (page.filter (ruleMatches pre sub)).map Event.send,
          receives := none, blocked := false } := by
  induction page with
  | nil => rfl
  | cons r rs ih =>
    unfold scanPage
    by_cases h : ruleMatches pre sub r = true
    · simp [h, ih]
    · simp [h, ih]

theorem sentRules_map_send (rs : List SecurityGroupRule) :
    sentRules (rs.map Event.send) = rs := by
  induction rs with
  | nil => rfl
  | cons r rs ih => simp [sentRules, ih]

theorem sentRules_pageBlock (pre sub : String) (page : List SecurityGroupRule) :
    sentRules (pageBlock pre sub page) = page.filter (ruleMatches pre sub) := by
  simp [pageBlock, sentRules, sentRules_map_send]

theorem sentRules_blocks (pre sub : String) (pages : List (List SecurityGroupRule)) :
    sentRules (pages.map (pageBlock pre sub)).flatten
      = (pages.map (List.filter (ruleMatches pre sub))).flatten := by
  induction pages with
  | nil => rfl
  | cons pg pgs ih => simp [sentRules_append, sentRules_pageBlock, ih]

theorem count_nextPage_pageBlock (pre sub : String) (page : List SecurityGroupRule) :
    (pageBlock pre sub page).count Event.nextPage = 1 := by
  unfold pageBlock
  rw [List.count_cons_self]
  have : ((page.filter (ruleMatches pre sub)).map Event.send).count Event.nextPage = 0 := by
    rw [List.count_eq_zero]
    intro h
    obtain ⟨r, _, hr⟩ := List.mem_map.mp h
    cases hr
  omega

theorem count_nextPage_blocks (pre sub : String) (pages : List (List SecurityGroupRule)) :
    (pages.map (pageBlock pre sub)).flatten.count Event.nextPage = pages.length := by
  induction pages with
  | nil => rfl
  | cons pg pgs ih =>
    simp only [List.map_cons, List.flatten_cons, List.count_append, List.length_cons, ih,
      count_nextPage_pageBlock]
    omega

theorem not_mem_blocks (pre sub : String) (pages : List (List SecurityGroupRule))
    (e : Event) (hn : e ≠ Event.nextPage) (hs : ∀ r, e ≠ Event.send r) :
    e ∉ (pages.map (pageBlock pre sub)).flatten := by
  intro h
  obtain ⟨blk, hblk, he⟩ := List.mem_flatten.mp h
  obtain ⟨pg, _, rfl⟩ := List.mem_map.mp hblk
  unfold pageBlock at he
  rcases List.mem_cons.mp he with h1 | h2
  · exact hn h1
  · obtain ⟨r, _, hr⟩ := List.mem_map.mp h2
    exact hs r hr.symm

theorem scanner_ok_pages (pre sub : String) (pages : List (List SecurityGroupRule))
    (rest : Paginator) :
    (scanner pre sub none (pages.map Except.ok ++ rest)).events
        = (pages.map (pageBlock pre sub)).flatten ++ (scanner pre sub none rest).events ∧
    (scanner pre sub none (pages.map Except.ok ++ rest)).outcome
        = (scanner pre sub none rest).outcome ∧
    (scanner pre sub none (pages.map Except.ok ++ rest)).unfetched
        = (scanner pre sub none rest).unfetched := by
  induction pages with
  | nil => exact ⟨rfl, rfl, rfl⟩
  | cons pg pgs ih =>
    obtain ⟨h1, h2, h3⟩ := ih
    simp only [List.map_cons, List.cons_append, scanner, scanPage_eq, Bool.false_eq_true,
      if_false, List.flatten_cons, pageBlock]
    have h1a : (scanner pre sub none ((List.map Except.ok pgs).append rest)).events
        = (pgs.map (pageBlock pre sub)).flatten ++ (scanner pre sub none rest).events := h1
    exact ⟨by rw [h1a]; simp, h2, h3⟩

theorem mem_sentRules_scanPage (pre sub : String) (r : SecurityGroupRule)
    (page : List SecurityGroupRule) (receives : Option Nat)
    (h : r ∈ sentRules (scanPage pre sub receives page).events) :
    ruleMatches pre sub r = true := by
  induction page generalizing receives with
  | nil => simp [scanPage, sentRules] at h
  | cons x xs ih =>
    unfold scanPage at h
    by_cases hx : ruleMatches pre sub x = true
    · simp only [hx, if_true] at h
      rcases receives with _ | _ | k
      · simp only [sentRules, List.mem_cons] at h
        rcases h with rfl | h
        · exact hx
        · exact ih _ h
      · simp [sentRules] at h
      · simp only [sentRules, List.mem_cons] at h
        rcases h with rfl | h
        · exact hx
        · exact ih _ h
    · simp only [hx] at h
      exact ih _ h

theorem mem_sentRules_scanner (pre sub : String) (r : SecurityGroupRule) (pages : Paginator)
    (receives : Option Nat)
    (h : r ∈ sentRules (scanner pre sub receives pages).events) :
    ruleMatches pre sub r = true := by
  induction pages generalizing receives with
  | nil => simp [scanner, sentRules] at h
  | cons pr rest ih =>
    cases pr with
    | error e => simp [scanner, sentRules] at h
    | ok pg =>
      unfold scanner at h
      by_cases hb : (scanPage pre sub receives pg).blocked = true
      · simp only [hb, if_true, sentRules] at h
        exact mem_sentRules_scanPage pre sub r pg receives h
      · simp only [hb, sentRules, sentRules_append, List.mem_append] at h
        rcases h with h | h
        · exact mem_sentRules_scanPage pre sub r pg receives h
        · exact ih _ h

theorem updateRule_path {σ : Type} (client : Provider σ) (cidr : String) (s : σ)
    (r : SecurityGroupRule) : RulePath client cidr s r (updateRule false client cidr s r) := by
  unfold updateRule
  simp only [Bool.false_eq_true, if_false]
  rcases h1 : client.revoke s (revokeInput r) with ⟨a1, s1⟩
  cases a1 with
  | error e => exact RulePath.revokeFailed e s1 h1
  | ok u =>
    cases u
    simp only []
    rcases h2 : client.authorize s1 (authorizeInput r cidr) with ⟨a2, s2⟩
    cases a2 with
    | error e => exact RulePath.authorizeFailed s1 e s2 h1 h2
    | ok resp =>
      simp only []
      rcases h3 : resp.SecurityGroupRules with _ | ⟨first, others⟩
      · exact RulePath.emptyResponse s1 resp s2 h1 h2 h3
      · simp only []
        rcases h4 : client.updateDescriptions s2 (updateInput r first.SecurityGroupRuleId)
          with ⟨a4, s3⟩
        cases a4 with
        | error e => exact RulePath.updateFailed s1 resp s2 first others e s3 h1 h2 h3 h4
        | ok u =>
          cases u
          exact RulePath.updated s1 resp s2 first others s3 h1 h2 h3 h4

theorem updateRule_dryRun {σ : Type} (client : Provider σ) (cidr : String) (s : σ)
    (r : SecurityGroupRule) :
    updateRule true client cidr s r
      = { events := [updatingLine r], state := s, panicked := false } := by
  simp [updateRule]

theorem done_not_mem_updateRule {σ : Type} (dryRun : Bool) (client : Provider σ)
    (cidr : String) (s : σ) (r : SecurityGroupRule) :
    Event.done ∉ (updateRule dryRun client cidr s r).events := by
  cases dryRun with
  | true => simp [updateRule_dryRun, updatingLine]
  | false =>
    have h := updateRule_path client cidr s r
    generalize updateRule false client cidr s r = res at h
    cases h <;>
      simp [updatingLine, revokeErrorLine, revokedLine, authorizeErrorLine, authorizedLine,
        updateErrorLine, updatedLine]

theorem done_not_mem_open {σ : Type} (dryRun : Bool) (client : Provider σ) (cidr : String)
    (rules : List SecurityGroupRule) (s : σ) :
    Event.done ∉ (sgRuleUpdater dryRun client cidr false s rules).events := by
  induction rules generalizing s with
  | nil => simp [sgRuleUpdater]
  | cons r rs ih =>
    unfold sgRuleUpdater
    by_cases hp : (updateRule dryRun client cidr s r).panicked = true
    · simp only [hp, if_true]
      exact done_not_mem_updateRule dryRun client cidr s r
    · simp only [hp]
      intro h
      rcases List.mem_append.mp h with h | h
      · exact done_not_mem_updateRule dryRun client cidr s r h
      · exact ih _ h

/-! ## Properties of the scanning task -/

/-- C1: a rule of a fetched page is sent to the updater exactly when it is not
an egress rule and its description (empty when absent) starts with the
non-empty prefix or contains the non-empty substring; with only a prefix set
the condition is the prefix test, with only a substring set the substring
test, and an egress rule is never sent, whatever the filters and pages. -/
theorem C1_scanner_match_predicate (pre sub : String) (r : SecurityGroupRule) :
    (∀ pages : List (List SecurityGroupRule),
      r ∈ sentRules (scanner pre sub none (pages.map Except.ok)).events ↔
        (∃ pg ∈ pages, r ∈ pg) ∧
        r.IsEgress.getD false = false ∧
          ((pre ≠ "" ∧ ∃ t : String, r.Description.getD "" = pre ++ t) ∨
           (sub ≠ "" ∧ ∃ a b : String, r.Description.getD "" = a ++ sub ++ b))) ∧
    (ruleMatches pre sub r = true ↔ Eligible pre sub r) ∧
    (pre ≠ "" → (ruleMatches pre "" r = true ↔
      r.IsEgress.getD false = false ∧ ∃ t : String, r.Description.getD "" = pre ++ t)) ∧
    (sub ≠ "" → (ruleMatches "" sub r = true ↔
      r.IsEgress.getD false = false ∧
        ∃ a b : String, r.Description.getD "" = a ++ sub ++ b)) ∧
    (r.IsEgress = some true →
      ruleMatches pre sub r = false ∧
      ∀ (receives : Option Nat) (pages : Paginator),
        r ∉ sentRules (scanner pre sub receives pages).events) := by
  refine ⟨?_, ruleMatches_iff pre sub r, ?_, ?_, ?_⟩
  · intro pages
    have h := (scanner_ok_pages pre sub pages []).1
    rw [List.append_nil] at h
    rw [h, sentRules_append, sentRules_blocks]
    simp only [scanner, sentRules, List.append_nil, List.mem_flatten, List.mem_map]
    constructor
    · rintro ⟨l, ⟨pg, hpg, rfl⟩, hr⟩
      obtain ⟨hr1, hr2⟩ := List.mem_filter.mp hr
      exact ⟨⟨pg, hpg, hr1⟩, (ruleMatches_iff pre sub r).mp hr2⟩
    · rintro ⟨⟨pg, hpg, hr⟩, he⟩
      exact ⟨_, ⟨pg, hpg, rfl⟩, List.mem_filter.mpr ⟨hr, (ruleMatches_iff pre sub r).mpr he⟩⟩
  · intro hpre
    rw [ruleMatches_iff]
    unfold Eligible
    constructor
    · rintro ⟨h1, h2 | h2⟩
      · exact ⟨h1, h2.2⟩
      · exact absurd rfl h2.1
    · rintro ⟨h1, h2⟩
      exact ⟨h1, Or.inl ⟨hpre, h2⟩⟩
  · intro hsub
    rw [ruleMatches_iff]
    unfold Eligible
    constructor
    · rintro ⟨h1, h2 | h2⟩
      · exact absurd rfl h2.1
      · exact ⟨h1, h2.2⟩
    · rintro ⟨h1, h2⟩
      exact ⟨h1, Or.inr ⟨hsub, h2⟩⟩
  · intro he
    have hf : ruleMatches pre sub r = false := by
      simp [ruleMatches, ToBool, he]
    refine ⟨hf, ?_⟩
    intro receives pages hmem
    rw [mem_sentRules_scanner pre sub r pages receives hmem] at hf
    exact absurd hf (by decide)

/-! ## The updating task -/

theorem calls_append (xs ys : List Event) : calls (xs ++ ys) = calls xs ++ calls ys := by
  induction xs with
  | nil => rfl
  | cons e es ih => cases e <;> simp [calls, ih]

theorem calls_map_updatingLine (rules : List SecurityGroupRule) :
    calls (rules.map updatingLine) = [] := by
  induction rules with
  | nil => rfl
  | cons r rs ih => simp [calls, updatingLine, ih]

theorem updater_dryRun {σ : Type} (client : Provider σ) (cidr : String) (closed : Bool)
    (rules : List SecurityGroupRule) (s : σ) :
    (sgRuleUpdater true client cidr closed s rules).events
        = rules.map updatingLine ++ (if closed then [Event.done] else []) ∧
    (sgRuleUpdater true client cidr closed s rules).state = s ∧
    (sgRuleUpdater true client cidr closed s rules).outcome
        = (if closed then UpdaterOutcome.done else UpdaterOutcome.blocked) := by
  induction rules with
  | nil => cases closed <;> simp [sgRuleUpdater]
  | cons r rs ih =>
    obtain ⟨h1, h2, h3⟩ := ih
    simp only [sgRuleUpdater, updateRule_dryRun, Bool.false_eq_true, if_false]
    exact ⟨by rw [h1]; rfl, h2, h3⟩

theorem mem_updater_events {σ : Type} (dryRun : Bool) (client : Provider σ) (cidr : String)
    (closed : Bool) (e : Event) (rules : List SecurityGroupRule) (s : σ)
    (h : e ∈ (sgRuleUpdater dryRun client cidr closed s rules).events) :
    e = Event.done ∨
      ∃ r ∈ rules, ∃ s1 : σ, e ∈ (updateRule dryRun client cidr s1 r).events := by
  induction rules generalizing s with
  | nil =>
    unfold sgRuleUpdater at h
    cases closed <;> simp at h
    exact Or.inl h
  | cons r rs ih =>
    unfold sgRuleUpdater at h
    by_cases hp : (updateRule dryRun client cidr s r).panicked = true
    · simp only [hp, if_true] at h
      exact Or.inr ⟨r, List.mem_cons_self _ _, s, h⟩
    · simp only [hp] at h
      rcases List.mem_append.mp h with h | h
      · exact Or.inr ⟨r, List.mem_cons_self _ _, s, h⟩
      · rcases ih _ h with h | ⟨r1, hr1, s1, h1⟩
        · exact Or.inl h
        · exact Or.inr ⟨r1, List.mem_cons_of_mem _ hr1, s1, h1⟩

/-! ## The run of both tasks -/

theorem panicAfter_live {σ : Type} (dryRun : Bool) (client : Provider σ) (cidr : String)
    (hlive : ∀ s r, (updateRule dryRun client cidr s r).panicked = false)
    (rules : List SecurityGroupRule) (s : σ) :
    panicAfter dryRun client cidr s rules = none := by
  induction rules generalizing s with
  | nil => rfl
  | cons r rs ih => simp [panicAfter, hlive, ih]

theorem updater_live {σ : Type} (dryRun : Bool) (client : Provider σ) (cidr : String)
    (hlive : ∀ s r, (updateRule dryRun client cidr s r).panicked = false) (closed : Bool)
    (rules : List SecurityGroupRule) (s : σ) :
    (sgRuleUpdater dryRun client cidr closed s rules).outcome
      = (if closed then UpdaterOutcome.done else UpdaterOutcome.blocked) := by
  induction rules generalizing s with
  | nil => cases closed <;> rfl
  | cons r rs ih => simp [sgRuleUpdater, hlive, ih]

theorem updater_append_live {σ : Type} (dryRun : Bool) (client : Provider σ) (cidr : String)
    (hlive : ∀ s r, (updateRule dryRun client cidr s r).panicked = false)
    (rules : List SecurityGroupRule) (r : SecurityGroupRule) (s : σ) :
    (sgRuleUpdater dryRun client cidr false s (rules ++ [r])).events
      = (sgRuleUpdater dryRun client cidr false s rules).events
        ++ (updateRule dryRun client cidr
            (sgRuleUpdater dryRun client cidr false s rules).state r).events := by
  induction rules generalizing s with
  | nil => simp [sgRuleUpdater, hlive]
  | cons x xs ih => simp [sgRuleUpdater, hlive, ih]

theorem eq_nil_or_snoc (xs : List SecurityGroupRule) :
    xs = [] ∨ ∃ ys r, xs = ys ++ [r] := by
  rcases List.eq_nil_or_concat xs with h | ⟨ys, r, h⟩
  · exact Or.inl h
  · exact Or.inr ⟨ys, r, by simpa using h⟩

theorem workerAtFatal_snoc {σ : Type} (dryRun : Bool) (client : Provider σ) (cidr : String)
    (lag : Nat) (s : σ) (xs : List SecurityGroupRule) (r : SecurityGroupRule) :
    workerAtFatal dryRun client cidr lag s (xs ++ [r])
      = (sgRuleUpdater dryRun client cidr false s xs).events
        ++ (updateRule dryRun client cidr
              (sgRuleUpdater dryRun client cidr false s xs).state r).events.take
            ((updateRule dryRun client cidr
              (sgRuleUpdater dryRun client cidr false s xs).state r).events.length - lag) := by
  simp [workerAtFatal]

theorem workerAtFatal_initial {σ : Type} (dryRun : Bool) (client : Provider σ) (cidr : String)
    (hlive : ∀ s r, (updateRule dryRun client cidr s r).panicked = false) (lag : Nat)
    (s : σ) (received : List SecurityGroupRule) :
    workerAtFatal dryRun client cidr lag s received
      <+: (sgRuleUpdater dryRun client cidr false s received).events := by
  rcases eq_nil_or_snoc received with h | ⟨xs, r, h⟩
  · subst h
    simp [workerAtFatal]
  · subst h
    rw [workerAtFatal_snoc, updater_append_live dryRun client cidr hlive]
    exact (List.prefix_append_right_inj _).mpr (List.take_prefix _ _)

theorem mem_workerAtFatal {σ : Type} (dryRun : Bool) (client : Provider σ) (cidr : String)
    (lag : Nat) (s : σ) (received : List SecurityGroupRule) (e : Event)
    (h : e ∈ workerAtFatal dryRun client cidr lag s received) :
    e ≠ Event.done ∧
      ∃ r ∈ received, ∃ s1 : σ, e ∈ (updateRule dryRun client cidr s1 r).events := by
  rcases eq_nil_or_snoc received with h0 | ⟨xs, r, h0⟩
  · subst h0
    simp [workerAtFatal] at h
  · subst h0
    rw [workerAtFatal_snoc] at h
    rcases List.mem_append.mp h with h | h
    · have hnd : e ≠ Event.done := by
        rintro rfl
        exact done_not_mem_open dryRun client cidr xs s h
      rcases mem_updater_events dryRun client cidr false e xs s h with h1 | ⟨r1, hr1, s1, h1⟩
      · exact absurd h1 hnd
      · exact ⟨hnd, r1, by simp [hr1], s1, h1⟩
    · have h1 := List.mem_of_mem_take h
      refine ⟨?_, r, by simp, _, h1⟩
      rintro rfl
      exact done_not_mem_updateRule _ _ _ _ _ h1

theorem panicAfter_none_iff {σ : Type} (dryRun : Bool) (client : Provider σ) (cidr : String)
    (closed : Bool) (rules : List SecurityGroupRule) (s : σ) :
    panicAfter dryRun client cidr s rules = none ↔
      (sgRuleUpdater dryRun client cidr closed s rules).outcome ≠ UpdaterOutcome.panicked := by
  induction rules generalizing s with
  | nil => cases closed <;> simp [panicAfter, sgRuleUpdater]
  | cons r rs ih =>
    by_cases hp : (updateRule dryRun client cidr s r).panicked = true
    · simp [panicAfter, sgRuleUpdater, hp]
    · simp [panicAfter, sgRuleUpdater, hp, ih]

theorem updater_outcome_of_none {σ : Type} (dryRun : Bool) (client : Provider σ)
    (cidr : String) (closed : Bool) (rules : List SecurityGroupRule) (s : σ)
    (h : panicAfter dryRun client cidr s rules = none) :
    (sgRuleUpdater dryRun client cidr closed s rules).outcome
      = (if closed then UpdaterOutcome.done else UpdaterOutcome.blocked) := by
  induction rules generalizing s with
  | nil => cases closed <;> rfl
  | cons r rs ih =>
    by_cases hp : (updateRule dryRun client cidr s r).panicked = true
    · simp [panicAfter, hp] at h
    · have hf : (updateRule dryRun client cidr s r).panicked = false := by simpa using hp
      simp only [panicAfter, hf, Bool.false_eq_true, if_false, Option.map_eq_none'] at h
      simp only [sgRuleUpdater, hf, Bool.false_eq_true, if_false]
      exact ih _ h

theorem updater_snoc_of_none {σ : Type} (dryRun : Bool) (client : Provider σ)
    (cidr : String) (rules : List SecurityGroupRule) (r : SecurityGroupRule) (s : σ)
    (h : panicAfter dryRun client cidr s (rules ++ [r]) = none) :
    (sgRuleUpdater dryRun client cidr false s (rules ++ [r])).events
      = (sgRuleUpdater dryRun client cidr false s rules).events
        ++ (updateRule dryRun client cidr
            (sgRuleUpdater dryRun client cidr false s rules).state r).events := by
  induction rules generalizing s with
  | nil =>
    by_cases hp : (updateRule dryRun client cidr s r).panicked = true
    · simp [sgRuleUpdater, hp]
    · simp [sgRuleUpdater, hp]
  | cons x xs ih =>
    by_cases hp : (updateRule dryRun client cidr s x).panicked = true
    · simp [panicAfter, hp] at h
    · have hf : (updateRule dryRun client cidr s x).panicked = false := by simpa using hp
      have h1 : panicAfter dryRun client cidr (updateRule dryRun client cidr s x).state
          (xs ++ [r]) = none := by
        simpa [panicAfter, hf] using h
      have h2 := ih _ h1
      simp only [List.cons_append, sgRuleUpdater, hf, Bool.false_eq_true, if_false,
        List.append_assoc]
      exact congrArg _ h2

theorem workerAtFatal_initial_of_none {σ : Type} (dryRun : Bool) (client : Provider σ)
    (cidr : String) (lag : Nat) (s : σ) (received : List SecurityGroupRule)
    (h : panicAfter dryRun client cidr s received = none) :
    workerAtFatal dryRun client cidr lag s received
      <+: (sgRuleUpdater dryRun client cidr false s received).events := by
  rcases eq_nil_or_snoc received with h0 | ⟨xs, r, h0⟩
  · subst h0
    simp [workerAtFatal]
  · subst h0
    rw [workerAtFatal_snoc, updater_snoc_of_none dryRun client cidr xs r s h]
    exact (List.prefix_append_right_inj _).mpr (List.take_prefix _ _)

theorem bothTasks_fatal_of_none {σ : Type} (f : Flags) (w : World σ) (ip : String)
    (hpa : panicAfter f.dryRun w.client (ip ++ "/32") w.init
      (sentRules (scanner f.ruleStartsWith f.ruleContains none w.pages).events) = none)
    (e : GoError)
    (hout : (scanner f.ruleStartsWith f.ruleContains none w.pages).outcome
      = ScanOutcome.fatal e) :
    bothTasks f w ip =
      { exit := Exit.fatal e,
        mainEvents := publicIPLine ip
          :: (scanner f.ruleStartsWith f.ruleContains none w.pages).events,
        workerEvents := workerAtFatal f.dryRun w.client (ip ++ "/32") w.schedule.lag w.init
          (sentRules (scanner f.ruleStartsWith f.ruleContains none w.pages).events),
        state := replay w.client w.init
          (workerAtFatal f.dryRun w.client (ip ++ "/32") w.schedule.lag w.init
            (sentRules (scanner f.ruleStartsWith f.ruleContains none w.pages).events)) } := by
  unfold bothTasks
  simp only [hpa, hout, updater_outcome_of_none f.dryRun w.client (ip ++ "/32") _ _ _ hpa]
  rfl

theorem bothTasks_closed_of_none {σ : Type} (f : Flags) (w : World σ) (ip : String)
    (hpa : panicAfter f.dryRun w.client (ip ++ "/32") w.init
      (sentRules (scanner f.ruleStartsWith f.ruleContains none w.pages).events) = none)
    (hout : (scanner f.ruleStartsWith f.ruleContains none w.pages).outcome
      = ScanOutcome.closed) :
    bothTasks f w ip =
      { exit := Exit.zero,
        mainEvents := publicIPLine ip
          :: (scanner f.ruleStartsWith f.ruleContains none w.pages).events,
        workerEvents := (sgRuleUpdater f.dryRun w.client (ip ++ "/32") true w.init
          (sentRules (scanner f.ruleStartsWith f.ruleContains none w.pages).events)).events,
        state := replay w.client w.init
          (sgRuleUpdater f.dryRun w.client (ip ++ "/32") true w.init
            (sentRules
              (scanner f.ruleStartsWith f.ruleContains none w.pages).events)).events } := by
  unfold bothTasks
  simp only [hpa, hout, updater_outcome_of_none f.dryRun w.client (ip ++ "/32") _ _ _ hpa]
  rfl

theorem bothTasks_live_fatal {σ : Type} (f : Flags) (w : World σ) (ip : String)
    (hlive : ∀ s r, (updateRule f.dryRun w.client (ip ++ "/32") s r).panicked = false)
    (e : GoError)
    (hout : (scanner f.ruleStartsWith f.ruleContains none w.pages).outcome
      = ScanOutcome.fatal e) :
    bothTasks f w ip =
      { exit := Exit.fatal e,
        mainEvents := publicIPLine ip
          :: (scanner f.ruleStartsWith f.ruleContains none w.pages).events,
        workerEvents := workerAtFatal f.dryRun w.client (ip ++ "/32") w.schedule.lag w.init
          (sentRules (scanner f.ruleStartsWith f.ruleContains none w.pages).events),
        state := replay w.client w.init
          (workerAtFatal f.dryRun w.client (ip ++ "/32") w.schedule.lag w.init
            (sentRules (scanner f.ruleStartsWith f.ruleContains none w.pages).events)) } :=
  bothTasks_fatal_of_none f w ip (panicAfter_live _ _ _ hlive _ _) e hout

theorem bothTasks_live_closed {σ : Type} (f : Flags) (w : World σ) (ip : String)
    (hlive : ∀ s r, (updateRule f.dryRun w.client (ip ++ "/32") s r).panicked = false)
    (hout : (scanner f.ruleStartsWith f.ruleContains none w.pages).outcome
      = ScanOutcome.closed) :
    bothTasks f w ip =
      { exit := Exit.zero,
        mainEvents := publicIPLine ip
          :: (scanner f.ruleStartsWith f.ruleContains none w.pages).events,
        workerEvents := (sgRuleUpdater f.dryRun w.client (ip ++ "/32") true w.init
          (sentRules (scanner f.ruleStartsWith f.ruleContains none w.pages).events)).events,
        state := replay w.client w.init
          (sgRuleUpdater f.dryRun w.client (ip ++ "/32") true w.init
            (sentRules
              (scanner f.ruleStartsWith f.ruleContains none w.pages).events)).events } :=
  bothTasks_closed_of_none f w ip (panicAfter_live _ _ _ hlive _ _) hout

theorem main_started {σ : Type} (f : Flags) (w : World σ) (ip : String)
    (hsg : f.sgId ≠ "") (hflt : ¬(f.ruleStartsWith = "" ∧ f.ruleContains = ""))
    (hip : queryPublicIP w.http = (ip, none)) (hcfg : w.configError = none) :
    main f w = bothTasks f w ip := by
  have hcond : ¬(f.sgId = "" ∨ (f.ruleStartsWith = "" ∧ f.ruleContains = "")) := by
    rintro (h | h)
    · exact hsg h
    · exact hflt h
  simp only [main, hcond, if_false, hip, hcfg]

theorem scanner_none_not_blocked (pre sub : String) (pages : Paginator) :
    (scanner pre sub none pages).outcome ≠ ScanOutcome.blocked := by
  induction pages with
  | nil => simp [scanner]
  | cons pr rest ih =>
    cases pr with
    | error e => simp [scanner]
    | ok pg =>
      simp only [scanner, scanPage_eq, Bool.false_eq_true, if_false]
      exact ih

theorem calls_initial (xs ys : List Event) (h : xs <+: ys) : calls xs <+: calls ys := by
  obtain ⟨t, rfl⟩ := h
  rw [calls_append]
  exact List.prefix_append _ _

theorem replay_no_calls {σ : Type} (client : Provider σ) (es : List Event) (s : σ)
    (h : calls es = []) : replay client s es = s := by
  induction es generalizing s with
  | nil => rfl
  | cons e es ih =>
    cases e <;> simp [calls] at h <;> simp [replay, ih _ h]

theorem dryRun_live {σ : Type} (client : Provider σ) (cidr : String) :
    ∀ (s : σ) (r : SecurityGroupRule), (updateRule true client cidr s r).panicked = false := by
  intro s r
  rw [updateRule_dryRun]

theorem bothTasks_dryRun {σ : Type} (f : Flags) (w : World σ) (ip : String)
    (hdry : f.dryRun = true) :
    calls (bothTasks f w ip).workerEvents = [] ∧ (bothTasks f w ip).state = w.init := by
  have hlive : ∀ s r, (updateRule f.dryRun w.client (ip ++ "/32") s r).panicked = false := by
    rw [hdry]
    exact dryRun_live w.client (ip ++ "/32")
  have hall : ∀ (closed : Bool) (rules : List SecurityGroupRule),
      calls (sgRuleUpdater f.dryRun w.client (ip ++ "/32") closed w.init rules).events
        = [] := by
    intro closed rules
    rw [hdry, (updater_dryRun w.client (ip ++ "/32") closed rules w.init).1, calls_append,
      calls_map_updatingLine]
    cases closed <;> rfl
  rcases hout : (scanner f.ruleStartsWith f.ruleContains none w.pages).outcome with _ | e | _
  · rw [bothTasks_live_closed f w ip hlive hout]
    exact ⟨hall _ _, replay_no_calls _ _ _ (hall _ _)⟩
  · rw [bothTasks_live_fatal f w ip hlive e hout]
    have hc : calls (workerAtFatal f.dryRun w.client (ip ++ "/32") w.schedule.lag w.init
        (sentRules (scanner f.ruleStartsWith f.ruleContains none w.pages).events)) = [] := by
      have hp := calls_initial _ _
        (workerAtFatal_initial f.dryRun w.client (ip ++ "/32") hlive w.schedule.lag w.init
          (sentRules (scanner f.ruleStartsWith f.ruleContains none w.pages).events))
      rw [hall] at hp
      exact List.prefix_nil.mp hp
    exact ⟨hc, replay_no_calls _ _ _ hc⟩
  · exact absurd hout (scanner_none_not_blocked _ _ _)

theorem bothTasks_workerEvents {σ : Type} (f : Flags) (w : World σ) (ip : String) :
    (∃ closed rules, (bothTasks f w ip).workerEvents
      = (sgRuleUpdater f.dryRun w.client (ip ++ "/32") closed w.init rules).events) ∨
    (∃ lag rules, (bothTasks f w ip).workerEvents
      = workerAtFatal f.dryRun w.client (ip ++ "/32") lag w.init rules) := by
  unfold bothTasks
  dsimp only
  split
  · split
    · exact Or.inr ⟨_, _, rfl⟩
    · exact Or.inl ⟨_, _, rfl⟩
  · exact Or.inl ⟨_, _, rfl⟩
  · exact Or.inr ⟨_, _, rfl⟩
  · exact Or.inl ⟨_, _, rfl⟩

theorem mem_bothTasks_workerEvents {σ : Type} (f : Flags) (w : World σ) (ip : String)
    (e : Event) (h : e ∈ (bothTasks f w ip).workerEvents) :
    e = Event.done ∨
      ∃ (r : SecurityGroupRule) (s1 : σ),
        e ∈ (updateRule f.dryRun w.client (ip ++ "/32") s1 r).events := by
  rcases bothTasks_workerEvents f w ip with ⟨closed, rules, heq⟩ | ⟨lag, rules, heq⟩
  · rw [heq] at h
    rcases mem_updater_events _ _ _ _ _ _ _ h with h1 | ⟨r, _, s1, h1⟩
    · exact Or.inl h1
    · exact Or.inr ⟨r, s1, h1⟩
  · rw [heq] at h
    obtain ⟨_, r, _, s1, h1⟩ := mem_workerAtFatal _ _ _ _ _ _ _ h
    exact Or.inr ⟨r, s1, h1⟩

/-! ## Properties of the updating task and of the run -/

/-- C4: with `dryRun` set the updater issues no revoke, authorize or
update-description call whatever the provider would answer, leaves the
provider state as it was, logs one `Updating` line per received rule in order,
and sends `done` exactly once, after the last rule; the same holds of a whole
run started with the dry-run flag. -/
theorem C4_dry_run_no_mutation {σ : Type} (client : Provider σ) (cidr : String) (s : σ)
    (rules : List SecurityGroupRule) (f : Flags) (w : World σ) :
    calls (sgRuleUpdater true client cidr true s rules).events = [] ∧
    (sgRuleUpdater true client cidr true s rules).state = s ∧
    (sgRuleUpdater true client cidr true s rules).events
      = rules.map (fun r => Event.log [LogArg.str "Updating",
          LogArg.str (ToString r.SecurityGroupRuleId), LogArg.str (ToString r.IpProtocol),
          LogArg.int (ToInt32 r.FromPort), LogArg.int (ToInt32 r.ToPort),
          LogArg.str (ToString r.CidrIpv4), LogArg.str (ToString r.Description)])
        ++ [Event.done] ∧
    (sgRuleUpdater true client cidr true s rules).outcome = UpdaterOutcome.done ∧
    (sgRuleUpdater true client cidr true s rules).events.count Event.done = 1 ∧
    calls (main { f with dryRun := true } w).workerEvents = [] ∧
    (main { f with dryRun := true } w).state = w.init := by
  obtain ⟨h1, h2, h3⟩ := updater_dryRun client cidr true rules s
  simp only [if_true] at h1 h3
  refine ⟨?_, h2, h1, h3, ?_, ?_, ?_⟩
  · rw [h1, calls_append, calls_map_updatingLine]; rfl
  · rw [h1, List.count_append]
    have : (rules.map updatingLine).count Event.done = 0 := by
      rw [List.count_eq_zero]
      intro h
      obtain ⟨r, _, hr⟩ := List.mem_map.mp h
      simp [updatingLine] at hr
    rw [this]; rfl
  · unfold main
    split
    · rfl
    · split
      · rfl
      · split
        · rfl
        · exact (bothTasks_dryRun _ w _ rfl).1
  · unfold main
    split
    · rfl
    · split
      · rfl
      · split
        · rfl
        · exact (bothTasks_dryRun _ w _ rfl).2

theorem updateRule_requests {σ : Type} (client : Provider σ) (cidr : String) (s : σ)
    (r : SecurityGroupRule) :
    (∀ inp, Event.revoke inp ∈ (updateRule false client cidr s r).events →
      inp = revokeInput r) ∧
    (∀ inp, Event.authorize inp ∈ (updateRule false client cidr s r).events →
      inp = authorizeInput r cidr) ∧
    (∀ inp, Event.updateDescriptions inp ∈ (updateRule false client cidr s r).events →
      ∃ s1 resp s2 first others,
        client.revoke s (revokeInput r) = (Except.ok (), s1) ∧
        client.authorize s1 (authorizeInput r cidr) = (Except.ok resp, s2) ∧
        resp.SecurityGroupRules = first :: others ∧
        inp = updateInput r first.SecurityGroupRuleId) := by
  have h := updateRule_path client cidr s r
  generalize updateRule false client cidr s r = res at h
  cases h with
  | revokeFailed e s1 h1 =>
    simp [updatingLine, revokeErrorLine]
  | authorizeFailed s1 e s2 h1 h2 =>
    simp [updatingLine, revokedLine, authorizeErrorLine]
  | emptyResponse s1 resp s2 h1 h2 h3 =>
    simp [updatingLine, revokedLine]
  | updateFailed s1 resp s2 first others e s3 h1 h2 h3 h4 =>
    refine ⟨by simp [updatingLine, revokedLine, authorizedLine, updateErrorLine],
      by simp [updatingLine, revokedLine, authorizedLine, updateErrorLine], ?_⟩
    intro inp hin
    simp [updatingLine, revokedLine, authorizedLine, updateErrorLine] at hin
    exact ⟨s1, resp, s2, first, others, h1, h2, h3, hin⟩
  | updated s1 resp s2 first others s3 h1 h2 h3 h4 =>
    refine ⟨by simp [updatingLine, revokedLine, authorizedLine, updatedLine],
      by simp [updatingLine, revokedLine, authorizedLine, updatedLine], ?_⟩
    intro inp hin
    simp [updatingLine, revokedLine, authorizedLine, updatedLine] at hin
    exact ⟨s1, resp, s2, first, others, h1, h2, h3, hin⟩

theorem authorize_not_mem_dryRun {σ : Type} (client : Provider σ) (cidr : String) (s : σ)
    (r : SecurityGroupRule) (inp : AuthorizeSecurityGroupIngressInput) :
    Event.authorize inp ∉ (updateRule true client cidr s r).events := by
  simp [updateRule_dryRun, updatingLine]

theorem updater_authorize_cidr {σ : Type} (dryRun : Bool) (client : Provider σ)
    (cidr : String) (closed : Bool) (rules : List SecurityGroupRule) (s : σ)
    (inp : AuthorizeSecurityGroupIngressInput)
    (h : Event.authorize inp ∈ (sgRuleUpdater dryRun client cidr closed s rules).events) :
    ∃ r ∈ rules, inp = authorizeInput r cidr := by
  rcases mem_updater_events dryRun client cidr closed _ rules s h with h | ⟨r, hr, s1, h1⟩
  · cases h
  · cases dryRun with
    | true => exact absurd h1 (authorize_not_mem_dryRun client cidr s1 r inp)
    | false => exact ⟨r, hr, (updateRule_requests client cidr s1 r).2.1 inp h1⟩

/-- C5: with `dryRun` false the revoke request for a rule names the rule's
group and exactly its identifier; every authorize request carries the rule's
group, protocol and ports, the CIDR `ip ++ "/32"` (the same for all rules of
the run, built from the looked-up public IP) and no description; an
update-description request is issued only after a successful authorize and
carries the rule's group, the identifier of the first rule of that answer and
the rule's own description; when all three calls succeed on a one-rule answer
the loop body issues exactly these three requests. -/
theorem C5_replacement_requests {σ : Type} (client : Provider σ) (ip : String) (s : σ)
    (r : SecurityGroupRule) (rules : List SecurityGroupRule) (closed : Bool)
    (f : Flags) (w : World σ) :
    (∀ inp, Event.revoke inp ∈ (updateRule false client (ip ++ "/32") s r).events →
      inp.GroupId = r.GroupId ∧
      inp.SecurityGroupRuleIds = [r.SecurityGroupRuleId.getD ""]) ∧
    (∀ inp, Event.authorize inp ∈ (updateRule false client (ip ++ "/32") s r).events →
      inp = { GroupId := r.GroupId, IpProtocol := r.IpProtocol, FromPort := r.FromPort,
              ToPort := r.ToPort, CidrIp := some (ip ++ "/32"), IpPermissions := [] }) ∧
    (∀ inp, Event.updateDescriptions inp ∈ (updateRule false client (ip ++ "/32") s r).events →
      ∃ s1 resp s2 first others,
        client.revoke s (revokeInput r) = (Except.ok (), s1) ∧
        client.authorize s1 (authorizeInput r (ip ++ "/32")) = (Except.ok resp, s2) ∧
        resp.SecurityGroupRules = first :: others ∧
        inp = { GroupId := r.GroupId,
                SecurityGroupRuleDescriptions :=
                  [{ SecurityGroupRuleId := first.SecurityGroupRuleId,
                     Description := r.Description }] }) ∧
    (∀ (s1 s2 s3 : σ) (new : SecurityGroupRule),
      client.revoke s (revokeInput r) = (Except.ok (), s1) →
      client.authorize s1 (authorizeInput r (ip ++ "/32"))
        = (Except.ok { SecurityGroupRules := [new] }, s2) →
      client.updateDescriptions s2 (updateInput r new.SecurityGroupRuleId)
        = (Except.ok (), s3) →
      (updateRule false client (ip ++ "/32") s r).events
        = [updatingLine r,
           Event.revoke { GroupId := r.GroupId,
                          SecurityGroupRuleIds := [r.SecurityGroupRuleId.getD ""] },
           revokedLine r,
           Event.authorize { GroupId := r.GroupId, IpProtocol := r.IpProtocol,
                             FromPort := r.FromPort, ToPort := r.ToPort,
                             CidrIp := some (ip ++ "/32"), IpPermissions := [] },
           authorizedLine (ip ++ "/32") new.SecurityGroupRuleId,
           Event.updateDescriptions
             { GroupId := r.GroupId,
               SecurityGroupRuleDescriptions :=
                 [{ SecurityGroupRuleId := new.SecurityGroupRuleId,
                    Description := r.Description }] },
           updatedLine new.SecurityGroupRuleId] ∧
      (updateRule false client (ip ++ "/32") s r).state = s3 ∧
      (updateRule false client (ip ++ "/32") s r).panicked = false) ∧
    (∀ inp, Event.authorize inp
        ∈ (sgRuleUpdater false client (ip ++ "/32") closed s rules).events →
      inp.CidrIp = some (ip ++ "/32") ∧ inp.IpPermissions = [] ∧
      ∃ r1 ∈ rules, inp.GroupId = r1.GroupId ∧ inp.IpProtocol = r1.IpProtocol ∧
        inp.FromPort = r1.FromPort ∧ inp.ToPort = r1.ToPort) ∧
    (∀ inp, Event.authorize inp ∈ (main f w).workerEvents →
      inp.CidrIp = some ((queryPublicIP w.http).1 ++ "/32")) := by
  obtain ⟨hr, ha, hu⟩ := updateRule_requests client (ip ++ "/32") s r
  refine ⟨?_, ?_, ?_, ?_, ?_, ?_⟩
  · intro inp hin
    rw [hr inp hin]
    exact ⟨rfl, rfl⟩
  · intro inp hin
    rw [ha inp hin]
    rfl
  · intro inp hin
    obtain ⟨s1, resp, s2, first, others, h1, h2, h3, h4⟩ := hu inp hin
    exact ⟨s1, resp, s2, first, others, h1, h2, h3, by rw [h4]; rfl⟩
  · intro s1 s2 s3 new h1 h2 h3
    have hev : updateRule false client (ip ++ "/32") s r
        = { events := [updatingLine r, Event.revoke (revokeInput r), revokedLine r,
              Event.authorize (authorizeInput r (ip ++ "/32")),
              authorizedLine (ip ++ "/32") new.SecurityGroupRuleId,
              Event.updateDescriptions (updateInput r new.SecurityGroupRuleId),
              updatedLine new.SecurityGroupRuleId],
            state := s3, panicked := false } := by
      simp only [updateRule, Bool.false_eq_true, if_false, h1, h2, h3]
    rw [hev]
    exact ⟨rfl, rfl, rfl⟩
  · intro inp hin
    obtain ⟨r1, hr1, rfl⟩ := updater_authorize_cidr false client _ closed rules s inp hin
    exact ⟨rfl, rfl, r1, hr1, rfl, rfl, rfl, rfl⟩
  · intro inp hin
    unfold main at hin
    split at hin
    · simp at hin
    · split at hin
      · simp at hin
      · rename_i publicIP heq
        split at hin
        · simp at hin
        · rcases mem_bothTasks_workerEvents f w publicIP _ hin with h | ⟨r1, s1, h1⟩
          · cases h
          · rw [heq]
            cases hd : f.dryRun with
            | true =>
              rw [hd] at h1
              exact absurd h1 (authorize_not_mem_dryRun _ _ _ _ _)
            | false =>
              rw [hd] at h1
              rw [(updateRule_requests _ _ _ _).2.1 inp h1]
              rfl

theorem revokedIds_append (xs ys : List Event) :
    revokedIds (xs ++ ys) = revokedIds xs ++ revokedIds ys := by
  induction xs with
  | nil => rfl
  | cons e es ih => cases e <;> simp [revokedIds, ih]

theorem updateRule_revokedIds {σ : Type} (client : Provider σ) (cidr : String) (s : σ)
    (r : SecurityGroupRule) :
    revokedIds (updateRule false client cidr s r).events
      = [[ToString r.SecurityGroupRuleId]] := by
  have h := updateRule_path client cidr s r
  generalize updateRule false client cidr s r = res at h
  cases h <;>
    simp [revokedIds, revokeInput, updatingLine, revokeErrorLine, revokedLine,
      authorizeErrorLine, authorizedLine, updateErrorLine, updatedLine]

theorem updateRule_calls {σ : Type} (client : Provider σ) (cidr : String) (s : σ)
    (r : SecurityGroupRule) :
    calls (updateRule false client cidr s r).events =
      match client.revoke s (revokeInput r) with
      | (Except.error _, _) => [Call.revoke]
      | (Except.ok _, s1) =>
        match client.authorize s1 (authorizeInput r cidr) with
        | (Except.error _, _) => [Call.revoke, Call.authorize]
        | (Except.ok resp, _) =>
          if resp.SecurityGroupRules = [] then [Call.revoke, Call.authorize]
          else [Call.revoke, Call.authorize, Call.updateDescriptions] := by
  have h := updateRule_path client cidr s r
  generalize updateRule false client cidr s r = res at h
  cases h with
  | revokeFailed e s1 h1 =>
    simp [h1, calls, updatingLine, revokeErrorLine]
  | authorizeFailed s1 e s2 h1 h2 =>
    simp [h1, h2, calls, updatingLine, revokedLine, authorizeErrorLine]
  | emptyResponse s1 resp s2 h1 h2 h3 =>
    simp [h1, h2, h3, calls, updatingLine, revokedLine]
  | updateFailed s1 resp s2 first others e s3 h1 h2 h3 h4 =>
    simp [h1, h2, h3, calls, updatingLine, revokedLine, authorizedLine, updateErrorLine]
  | updated s1 resp s2 first others s3 h1 h2 h3 h4 =>
    simp [h1, h2, h3, calls, updatingLine, revokedLine, authorizedLine, updatedLine]

theorem updateRule_total {σ : Type} (dryRun : Bool) (client : Provider σ) (cidr : String)
    (s : σ) (r : SecurityGroupRule)
    (hresp : ∀ s0 inp resp s1, client.authorize s0 inp = (Except.ok resp, s1) →
      resp.SecurityGroupRules ≠ []) :
    (updateRule dryRun client cidr s r).panicked = false := by
  cases dryRun with
  | true => rw [updateRule_dryRun]
  | false =>
    have h := updateRule_path client cidr s r
    generalize updateRule false client cidr s r = res at h
    cases h with
    | emptyResponse s1 resp s2 h1 h2 h3 => exact absurd h3 (hresp _ _ _ _ h2)
    | _ => rfl

theorem updater_total {σ : Type} (dryRun : Bool) (client : Provider σ) (cidr : String)
    (hresp : ∀ s0 inp resp s1, client.authorize s0 inp = (Except.ok resp, s1) →
      resp.SecurityGroupRules ≠ [])
    (rules : List SecurityGroupRule) (s : σ) :
    (sgRuleUpdater dryRun client cidr true s rules).outcome = UpdaterOutcome.done ∧
    ∃ blocks : List (List Event),
      List.Forall₂ (fun r blk => ∃ s1 : σ, blk = (updateRule dryRun client cidr s1 r).events)
        rules blocks ∧
      (sgRuleUpdater dryRun client cidr true s rules).events
        = blocks.flatten ++ [Event.done] := by
  induction rules generalizing s with
  | nil => exact ⟨rfl, [], List.Forall₂.nil, rfl⟩
  | cons r rs ih =>
    obtain ⟨h1, blocks, h2, h3⟩ := ih (updateRule dryRun client cidr s r).state
    have hp := updateRule_total dryRun client cidr s r hresp
    refine ⟨?_, (updateRule dryRun client cidr s r).events :: blocks,
      List.Forall₂.cons ⟨s, rfl⟩ h2, ?_⟩
    · simp only [sgRuleUpdater, hp, Bool.false_eq_true, if_false]
      exact h1
    · simp only [sgRuleUpdater, hp, Bool.false_eq_true, if_false, h3, List.flatten_cons,
        List.append_assoc]

theorem done_not_mem_blocks {σ : Type} (dryRun : Bool) (client : Provider σ) (cidr : String)
    (rules : List SecurityGroupRule) (blocks : List (List Event))
    (h : List.Forall₂
      (fun r blk => ∃ s1 : σ, blk = (updateRule dryRun client cidr s1 r).events) rules blocks) :
    Event.done ∉ blocks.flatten := by
  induction h with
  | nil => simp
  | cons hb _ ih =>
    obtain ⟨s1, rfl⟩ := hb
    rw [List.flatten_cons]
    intro hm
    rcases List.mem_append.mp hm with hm | hm
    · exact done_not_mem_updateRule _ _ _ _ _ hm
    · exact ih hm

theorem revokedIds_blocks {σ : Type} (client : Provider σ) (cidr : String)
    (rules : List SecurityGroupRule) (blocks : List (List Event))
    (h : List.Forall₂
      (fun r blk => ∃ s1 : σ, blk = (updateRule false client cidr s1 r).events) rules blocks) :
    revokedIds blocks.flatten = rules.map fun r => [ToString r.SecurityGroupRuleId] := by
  induction h with
  | nil => rfl
  | cons hb _ ih =>
    obtain ⟨s1, rfl⟩ := hb
    rw [List.flatten_cons, revokedIds_append, updateRule_revokedIds, ih]
    rfl

/-- C6: the provider calls of one pass through the loop body with `dryRun`
false are revoke alone when revoke fails, revoke and authorize when authorize
fails, and all three when authorize answers with at least one rule; but when
revoke and authorize both succeed and the answer carries no rule, as for `r1`
against a provider answering with an empty list, only revoke and authorize are
issued although no call failed, and the pass ends in a panic. -/
theorem C6_calls_per_rule :
    (∀ (σ : Type) (client : Provider σ) (cidr : String) (s : σ) (r : SecurityGroupRule),
      calls (updateRule false client cidr s r).events =
        match client.revoke s (revokeInput r) with
        | (Except.error _, _) => [Call.revoke]
        | (Except.ok _, s1) =>
          match client.authorize s1 (authorizeInput r cidr) with
          | (Except.error _, _) => [Call.revoke, Call.authorize]
          | (Except.ok resp, _) =>
            if resp.SecurityGroupRules = [] then [Call.revoke, Call.authorize]
            else [Call.revoke, Call.authorize, Call.updateDescriptions]) ∧
    (stubClient none none none []).revoke 0 (revokeInput ruleR1) = (Except.ok (), 1) ∧
    (stubClient none none none []).authorize 1 (authorizeInput ruleR1 "9.9.9.9/32")
      = (Except.ok { SecurityGroupRules := [] }, 2) ∧
    calls (updateRule false (stubClient none none none []) "9.9.9.9/32" 0 ruleR1).events
      = [Call.revoke, Call.authorize] ∧
    (updateRule false (stubClient none none none []) "9.9.9.9/32" 0 ruleR1).panicked = true :=
  ⟨fun _ client cidr s r => updateRule_calls client cidr s r, rfl, rfl, by decide, by decide⟩

/-- C7: when every successful authorize answer carries a rule, the updater
with `dryRun` false handles every received rule once and in the order
received, whatever calls fail: its trace is one block per rule, each the
events of the loop body for that rule, followed by a single `done`; the
identifiers of the revoke calls are those of the received rules in order; and
a run whose flags are valid and whose lookup, configuration and page fetches
succeed exits with status zero. -/
theorem C7_batch_continues_fifo {σ : Type} (client : Provider σ) (cidr : String) (s : σ)
    (rules : List SecurityGroupRule)
    (hresp : ∀ s0 inp resp s1, client.authorize s0 inp = (Except.ok resp, s1) →
      resp.SecurityGroupRules ≠ []) :
    (sgRuleUpdater false client cidr true s rules).outcome = UpdaterOutcome.done ∧
    revokedIds (sgRuleUpdater false client cidr true s rules).events
      = rules.map (fun r => [ToString r.SecurityGroupRuleId]) ∧
    (∃ blocks : List (List Event),
      List.Forall₂ (fun r blk => ∃ s1 : σ, blk = (updateRule false client cidr s1 r).events)
        rules blocks ∧
      (sgRuleUpdater false client cidr true s rules).events
        = blocks.flatten ++ [Event.done]) ∧
    (sgRuleUpdater false client cidr true s rules).events.count Event.done = 1 ∧
    (∀ (f : Flags) (ip : String) (status : Nat) (pages : List (List SecurityGroupRule)),
      f.sgId ≠ "" → ¬(f.ruleStartsWith = "" ∧ f.ruleContains = "") →
      (main f { http := HttpOutcome.response status (BodyRead.mk ip none),
                   configError := none, pages := pages.map Except.ok,
                   client := client, init := s }).exit = Exit.zero ∧
      (main f { http := HttpOutcome.response status (BodyRead.mk ip none),
                   configError := none, pages := pages.map Except.ok,
                   client := client, init := s }).exit.code = 0) := by
  obtain ⟨h1, blocks, h2, h3⟩ := updater_total false client cidr hresp rules s
  have hd := done_not_mem_blocks false client cidr rules blocks h2
  refine ⟨h1, ?_, ⟨blocks, h2, h3⟩, ?_, ?_⟩
  · rw [h3, revokedIds_append, revokedIds_blocks client cidr rules blocks h2]
    simp [revokedIds]
  · rw [h3, List.count_append, List.count_eq_zero.mpr hd]
    rfl
  · intro f ip status pages hsg hflt
    have hsc : (scanner f.ruleStartsWith f.ruleContains none (pages.map Except.ok)).outcome
        = ScanOutcome.closed := by
      have h := (scanner_ok_pages f.ruleStartsWith f.ruleContains pages []).2.1
      rw [List.append_nil] at h
      rw [h]
      rfl
    have hlive : ∀ s1 r, (updateRule f.dryRun client (ip ++ "/32") s1 r).panicked = false :=
      fun s1 r => updateRule_total _ _ _ _ _ hresp
    have hm := main_started f
      (World.mk (HttpOutcome.response status (BodyRead.mk ip none)) none
        (pages.map Except.ok) client s {}) ip hsg hflt rfl rfl
    rw [hm, bothTasks_live_closed f _ ip hlive hsc]
    exact ⟨rfl, rfl⟩

/-- C7 at a concrete input: two rules against a provider whose revoke and
authorize succeed and whose update-description fails. -/
theorem C7_batch_continues_fifo_witness :
    (sgRuleUpdater false (stubClient none none (some "Throttled") [ruleNew]) "9.9.9.9/32"
        true 0 [ruleR1, ruleR2]).outcome = UpdaterOutcome.done ∧
    revokedIds (sgRuleUpdater false (stubClient none none (some "Throttled") [ruleNew])
        "9.9.9.9/32" true 0 [ruleR1, ruleR2]).events = [["r1"], ["r2"]] :=
  have h := C7_batch_continues_fifo (stubClient none none (some "Throttled") [ruleNew])
    "9.9.9.9/32" 0 [ruleR1, ruleR2]
    (by
      intro s0 inp resp s1 hok
      simp only [stubClient, Prod.mk.injEq, Except.ok.injEq] at hok
      rw [← hok.1]
      simp)
  ⟨h.1, h.2.1⟩

/-- C2: in a run whose page fetches all succeed and whose updater does not
panic on the matching rules, so that it receives every rule sent to it, the
scanning task fetches all N pages, sends for each page in turn its matching
rules in page order, and closes the channel once, as its last action, leaving
no page unfetched; the updater handles exactly these rules and the run exits
with status zero. -/
theorem C2_complete_pagination {σ : Type} (f : Flags) (w : World σ) (ip : String)
    (pages : List (List SecurityGroupRule))
    (hsg : f.sgId ≠ "") (hflt : ¬(f.ruleStartsWith = "" ∧ f.ruleContains = ""))
    (hip : queryPublicIP w.http = (ip, none)) (hcfg : w.configError = none)
    (hpages : w.pages = pages.map Except.ok)
    (hlive : (sgRuleUpdater f.dryRun w.client (ip ++ "/32") true w.init
      (pages.map (List.filter (ruleMatches f.ruleStartsWith f.ruleContains))).flatten).outcome
        ≠ UpdaterOutcome.panicked) :
    (main f w).exit = Exit.zero ∧
    (main f w).mainEvents
      = Event.log [LogArg.str "Public IP:", LogArg.str ip]
        :: ((pages.map fun pg =>
              Event.nextPage
                :: (pg.filter (ruleMatches f.ruleStartsWith f.ruleContains)).map
                    Event.send).flatten
            ++ [Event.close]) ∧
    pageFetches (main f w).mainEvents = pages.length ∧
    sentRules (main f w).mainEvents
      = (pages.map (List.filter (ruleMatches f.ruleStartsWith f.ruleContains))).flatten ∧
    (main f w).mainEvents.count Event.close = 1 ∧
    (scanner f.ruleStartsWith f.ruleContains none w.pages).unfetched = [] ∧
    (main f w).workerEvents
      = (sgRuleUpdater f.dryRun w.client (ip ++ "/32") true w.init
          (pages.map (List.filter (ruleMatches f.ruleStartsWith f.ruleContains))).flatten).events
      := by
  obtain ⟨h1, h2, h3⟩ := scanner_ok_pages f.ruleStartsWith f.ruleContains pages []
  rw [List.append_nil, ← hpages] at h1 h2 h3
  have hev : (scanner f.ruleStartsWith f.ruleContains none w.pages).events
      = (pages.map (pageBlock f.ruleStartsWith f.ruleContains)).flatten ++ [Event.close] := by
    rw [h1]; rfl
  have hout : (scanner f.ruleStartsWith f.ruleContains none w.pages).outcome
      = ScanOutcome.closed := by
    rw [h2]; rfl
  have hsent : sentRules (scanner f.ruleStartsWith f.ruleContains none w.pages).events
      = (pages.map (List.filter (ruleMatches f.ruleStartsWith f.ruleContains))).flatten := by
    rw [hev, sentRules_append, sentRules_blocks]
    simp [sentRules]
  have hpa : panicAfter f.dryRun w.client (ip ++ "/32") w.init
      (sentRules (scanner f.ruleStartsWith f.ruleContains none w.pages).events) = none := by
    rw [hsent]
    exact (panicAfter_none_iff _ _ _ true _ _).mpr hlive
  rw [main_started f w ip hsg hflt hip hcfg, bothTasks_closed_of_none f w ip hpa hout]
  refine ⟨rfl, ?_, ?_, ?_, ?_, ?_, ?_⟩
  · show publicIPLine ip :: _ = _
    rw [hev]
    rfl
  · show pageFetches (publicIPLine ip :: _) = _
    rw [hev, pageFetches, publicIPLine, List.count_cons_of_ne (by simp), List.count_append,
      count_nextPage_blocks]
    simp
  · exact hsent
  · show (publicIPLine ip :: _).count Event.close = 1
    rw [hev, publicIPLine, List.count_cons_of_ne (by simp), List.count_append,
      List.count_eq_zero.mpr
        (not_mem_blocks _ _ pages Event.close (by simp) (by simp))]
    simp
  · rw [h3]; rfl
  · show (sgRuleUpdater _ _ _ _ _ _).events = _
    rw [hsent]

/-- C2 at a concrete input: one page holding `r1` and `r2`, the prefix
"home", and a provider all of whose calls succeed. -/
theorem C2_complete_pagination_witness :
    (main { sgId := "sg-1", ruleStartsWith := "home" }
      { http := HttpOutcome.response 200 (BodyRead.mk "9.9.9.9" none),
        configError := none, pages := [Except.ok [ruleR1, ruleR2]],
        client := stubClient none none none [ruleNew], init := 0 }).exit = Exit.zero ∧
    (main { sgId := "sg-1", ruleStartsWith := "home" }
      { http := HttpOutcome.response 200 (BodyRead.mk "9.9.9.9" none),
        configError := none, pages := [Except.ok [ruleR1, ruleR2]],
        client := stubClient none none none [ruleNew], init := 0 }).mainEvents
      = [Event.log [LogArg.str "Public IP:", LogArg.str "9.9.9.9"], Event.nextPage,
         Event.send ruleR1, Event.close] :=
  have h := C2_complete_pagination { sgId := "sg-1", ruleStartsWith := "home" }
    { http := HttpOutcome.response 200 (BodyRead.mk "9.9.9.9" none),
      configError := none, pages := [Except.ok [ruleR1, ruleR2]],
      client := stubClient none none none [ruleNew], init := 0 }
    "9.9.9.9" [[ruleR1, ruleR2]] (by decide) (by decide) rfl rfl rfl (by decide)
  ⟨h.1, h.2.1.trans (by decide)⟩

/-- C3: in a run in which page k is the first whose fetch fails and whose
updater does not panic on the matching rules of the pages before k, the
scanning task makes exactly k fetches, sends exactly the matching rules of
pages 1..k-1 in order and then ends the process by `log.Fatal` with the error
of that fetch (status 1); the later pages stay unfetched, the channel is
never closed, the updater never sends `done`, and what the updater did is an
initial part of its handling of the rules sent. -/
theorem C3_abort_on_page_error {σ : Type} (f : Flags) (w : World σ) (ip : String)
    (before : List (List SecurityGroupRule)) (e : GoError) (later : Paginator)
    (hsg : f.sgId ≠ "") (hflt : ¬(f.ruleStartsWith = "" ∧ f.ruleContains = ""))
    (hip : queryPublicIP w.http = (ip, none)) (hcfg : w.configError = none)
    (hpages : w.pages = before.map Except.ok ++ Except.error e :: later)
    (hlive : (sgRuleUpdater f.dryRun w.client (ip ++ "/32") false w.init
      (before.map (List.filter (ruleMatches f.ruleStartsWith f.ruleContains))).flatten).outcome
        ≠ UpdaterOutcome.panicked) :
    (main f w).exit = Exit.fatal e ∧
    (main f w).exit.code = 1 ∧
    (main f w).mainEvents
      = Event.log [LogArg.str "Public IP:", LogArg.str ip]
        :: ((before.map fun pg =>
              Event.nextPage
                :: (pg.filter (ruleMatches f.ruleStartsWith f.ruleContains)).map
                    Event.send).flatten
            ++ [Event.nextPage, Event.fatal e]) ∧
    pageFetches (main f w).mainEvents = before.length + 1 ∧
    (scanner f.ruleStartsWith f.ruleContains none w.pages).unfetched = later ∧
    Event.close ∉ (main f w).mainEvents ∧
    sentRules (main f w).mainEvents
      = (before.map (List.filter (ruleMatches f.ruleStartsWith f.ruleContains))).flatten ∧
    Event.done ∉ (main f w).workerEvents ∧
    (main f w).workerEvents
      <+: (sgRuleUpdater f.dryRun w.client (ip ++ "/32") false w.init
            (before.map
              (List.filter (ruleMatches f.ruleStartsWith f.ruleContains))).flatten).events
      := by
  obtain ⟨h1, h2, h3⟩ :=
    scanner_ok_pages f.ruleStartsWith f.ruleContains before (Except.error e :: later)
  rw [← hpages] at h1 h2 h3
  have hev : (scanner f.ruleStartsWith f.ruleContains none w.pages).events
      = (before.map (pageBlock f.ruleStartsWith f.ruleContains)).flatten
        ++ [Event.nextPage, Event.fatal e] := by
    rw [h1]; rfl
  have hout : (scanner f.ruleStartsWith f.ruleContains none w.pages).outcome
      = ScanOutcome.fatal e := by
    rw [h2]; rfl
  have hsent : sentRules (scanner f.ruleStartsWith f.ruleContains none w.pages).events
      = (before.map (List.filter (ruleMatches f.ruleStartsWith f.ruleContains))).flatten := by
    rw [hev, sentRules_append, sentRules_blocks]
    simp [sentRules]
  have hpa : panicAfter f.dryRun w.client (ip ++ "/32") w.init
      (sentRules (scanner f.ruleStartsWith f.ruleContains none w.pages).events) = none := by
    rw [hsent]
    exact (panicAfter_none_iff _ _ _ false _ _).mpr hlive
  rw [main_started f w ip hsg hflt hip hcfg, bothTasks_fatal_of_none f w ip hpa e hout]
  refine ⟨rfl, rfl, ?_, ?_, ?_, ?_, ?_, ?_, ?_⟩
  · show publicIPLine ip :: _ = _
    rw [hev]
    rfl
  · show pageFetches (publicIPLine ip :: _) = _
    rw [hev, pageFetches, publicIPLine, List.count_cons_of_ne (by simp), List.count_append,
      count_nextPage_blocks]
    simp
  · rw [h3]; rfl
  · show Event.close ∉ publicIPLine ip :: _
    rw [hev]
    intro h
    rcases List.mem_cons.mp h with h | h
    · simp [publicIPLine] at h
    · rcases List.mem_append.mp h with h | h
      · exact not_mem_blocks _ _ before Event.close (by simp) (by simp) h
      · simp at h
  · exact hsent
  · intro h
    exact (mem_workerAtFatal _ _ _ _ _ _ _ h).1 rfl
  · show workerAtFatal _ _ _ _ _ _ <+: _
    rw [hsent] at hpa ⊢
    exact workerAtFatal_initial_of_none _ _ _ _ _ _ hpa

/-- C3 at a concrete input: a first page holding `r1` and `r2`, a second page
whose fetch fails, a third never asked for, and a provider all of whose calls
succeed. -/
theorem C3_abort_on_page_error_witness :
    (main { sgId := "sg-1", ruleContains := "ssh" }
      { http := HttpOutcome.response 200 (BodyRead.mk "9.9.9.9" none),
        configError := none,
        pages := [Except.ok [ruleR1, ruleR2], Except.error "RequestLimitExceeded",
          Except.ok [ruleR1]],
        client := stubClient none none none [ruleNew], init := 0 }).exit
      = Exit.fatal "RequestLimitExceeded" ∧
    (main { sgId := "sg-1", ruleContains := "ssh" }
      { http := HttpOutcome.response 200 (BodyRead.mk "9.9.9.9" none),
        configError := none,
        pages := [Except.ok [ruleR1, ruleR2], Except.error "RequestLimitExceeded",
          Except.ok [ruleR1]],
        client := stubClient none none none [ruleNew], init := 0 }).mainEvents
      = [Event.log [LogArg.str "Public IP:", LogArg.str "9.9.9.9"], Event.nextPage,
         Event.send ruleR1, Event.send ruleR2, Event.nextPage,
         Event.fatal "RequestLimitExceeded"] :=
  have h := C3_abort_on_page_error { sgId := "sg-1", ruleContains := "ssh" }
    { http := HttpOutcome.response 200 (BodyRead.mk "9.9.9.9" none),
      configError := none,
      pages := [Except.ok [ruleR1, ruleR2], Except.error "RequestLimitExceeded",
        Except.ok [ruleR1]],
      client := stubClient none none none [ruleNew], init := 0 }
    "9.9.9.9" [[ruleR1, ruleR2]] "RequestLimitExceeded" [Except.ok [ruleR1]]
    (by decide) (by decide) rfl rfl rfl (by decide)
  ⟨h.1, h.2.2.1.trans (by decide)⟩

/-! ## Properties of the public-IP lookup -/

/-- C8 fails for a response outside 2xx: a 503 answer whose body is read
without error gives a nil error and its body as the address, and the run goes
on to revoke `r1` and to ask for the CIDR made of that body. -/
theorem C8_status_not_examined :
    ¬(200 ≤ 503 ∧ 503 < 300) ∧
    queryPublicIP (HttpOutcome.response 503 (BodyRead.mk "Service Unavailable" none))
      = ("Service Unavailable", none) ∧
    (main { sgId := "sg-1", ruleStartsWith := "home" }
      { http := HttpOutcome.response 503 (BodyRead.mk "Service Unavailable" none),
        configError := none, pages := [Except.ok [ruleR1, ruleR2]],
        client := stubClient none (some "InvalidParameterValue") none [],
        init := 0 }).workerEvents
      = [updatingLine ruleR1, Event.revoke (revokeInput ruleR1), revokedLine ruleR1,
         Event.authorize (authorizeInput ruleR1 "Service Unavailable/32"),
         authorizeErrorLine, Event.done] ∧
    (main { sgId := "sg-1", ruleStartsWith := "home" }
      { http := HttpOutcome.response 503 (BodyRead.mk "Service Unavailable" none),
        configError := none, pages := [Except.ok [ruleR1, ruleR2]],
        client := stubClient none (some "InvalidParameterValue") none [],
        init := 0 }).exit = Exit.zero :=
  ⟨by decide, rfl, by decide, by decide⟩

/-- C8 as amended: `queryPublicIP` returns an error exactly when the transport
fails or reading the body fails, and then a run with valid flags ends in
`log.Fatal` with status 1 before any page fetch or provider call; for a
response of any status whose body is read without error it returns a nil
error and the body verbatim. -/
theorem C8_public_ip_lookup {σ : Type} (h : HttpOutcome) (f : Flags) (w : World σ) :
    ((queryPublicIP h).2 ≠ none ↔
      (∃ e, h = HttpOutcome.transportError e) ∨
      (∃ status raw e, h = HttpOutcome.response status (BodyRead.mk raw (some e)))) ∧
    (∀ e, queryPublicIP (HttpOutcome.transportError e) = ("", some e)) ∧
    (∀ status raw e,
      queryPublicIP (HttpOutcome.response status (BodyRead.mk raw (some e)))
        = (raw, some e)) ∧
    (∀ status raw,
      queryPublicIP (HttpOutcome.response status (BodyRead.mk raw none)) = (raw, none)) ∧
    (∀ e, f.sgId ≠ "" → ¬(f.ruleStartsWith = "" ∧ f.ruleContains = "") →
      (queryPublicIP w.http).2 = some e →
      (main f w).exit = Exit.fatal e ∧ (main f w).exit.code = 1 ∧
      (main f w).mainEvents = [Event.fatal e] ∧
      (main f w).workerEvents = [] ∧ (main f w).state = w.init) := by
  refine ⟨?_, fun _ => rfl, fun _ _ _ => rfl, fun _ _ => rfl, ?_⟩
  · cases h with
    | transportError e => simp [queryPublicIP]
    | response status body =>
      obtain ⟨raw, err⟩ := body
      cases err with
      | none => simp [queryPublicIP]
      | some e => simp [queryPublicIP]
  · intro e hsg hflt herr
    have hcond : ¬(f.sgId = "" ∨ (f.ruleStartsWith = "" ∧ f.ruleContains = "")) := by
      rintro (h | h)
      · exact hsg h
      · exact hflt h
    rcases hq : queryPublicIP w.http with ⟨ip, err⟩
    rw [hq] at herr
    simp only at herr
    subst herr
    simp only [main, hcond, if_false, hq, Exit.code, and_self]

/-! ## Properties of the log and the unguarded index -/

set_option maxRecDepth 100000 in
/-- C9: when authorize fails the error line is `ERROR Unable to authorize new
rule` and when update-description fails it is `ERROR Unable to update rule
description`, for every rule; for `r1` neither text names `r1` (nor the new
rule `r9`), while the error line of a failed revoke does name `r1`. -/
theorem C9_error_lines :
    (∀ (σ : Type) (client : Provider σ) (cidr : String) (s s1 s2 : σ)
        (r : SecurityGroupRule) (e : GoError),
      client.revoke s (revokeInput r) = (Except.ok (), s1) →
      client.authorize s1 (authorizeInput r cidr) = (Except.error e, s2) →
      (updateRule false client cidr s r).events
        = [updatingLine r, Event.revoke (revokeInput r), revokedLine r,
           Event.authorize (authorizeInput r cidr),
           Event.log [LogArg.str "ERROR", LogArg.str "Unable to authorize new rule"]]) ∧
    (∀ (σ : Type) (client : Provider σ) (cidr : String) (s s1 s2 s3 : σ)
        (r first : SecurityGroupRule) (others : List SecurityGroupRule) (e : GoError),
      client.revoke s (revokeInput r) = (Except.ok (), s1) →
      client.authorize s1 (authorizeInput r cidr)
        = (Except.ok { SecurityGroupRules := first :: others }, s2) →
      client.updateDescriptions s2 (updateInput r first.SecurityGroupRuleId)
        = (Except.error e, s3) →
      (updateRule false client cidr s r).events
        = [updatingLine r, Event.revoke (revokeInput r), revokedLine r,
           Event.authorize (authorizeInput r cidr),
           authorizedLine cidr first.SecurityGroupRuleId,
           Event.updateDescriptions (updateInput r first.SecurityGroupRuleId),
           Event.log [LogArg.str "ERROR",
             LogArg.str "Unable to update rule description"]]) ∧
    (updateRule false (stubClient none (some "RulesPerSecurityGroupLimitExceeded") none [])
        "9.9.9.9/32" 0 ruleR1).events
      = [updatingLine ruleR1, Event.revoke (revokeInput ruleR1), revokedLine ruleR1,
         Event.authorize (authorizeInput ruleR1 "9.9.9.9/32"),
         Event.log [LogArg.str "ERROR", LogArg.str "Unable to authorize new rule"]] ∧
    Println [LogArg.str "ERROR", LogArg.str "Unable to authorize new rule"]
      = "ERROR Unable to authorize new rule\n" ∧
    lineNames "r1"
      (Event.log [LogArg.str "ERROR", LogArg.str "Unable to authorize new rule"]) = false ∧
    (updateRule false (stubClient none none (some "Throttled") [ruleNew])
        "9.9.9.9/32" 0 ruleR1).events
      = [updatingLine ruleR1, Event.revoke (revokeInput ruleR1), revokedLine ruleR1,
         Event.authorize (authorizeInput ruleR1 "9.9.9.9/32"),
         authorizedLine "9.9.9.9/32" (some "r9"),
         Event.updateDescriptions (updateInput ruleR1 (some "r9")),
         Event.log [LogArg.str "ERROR", LogArg.str "Unable to update rule description"]] ∧
    lineNames "r1"
      (Event.log [LogArg.str "ERROR", LogArg.str "Unable to update rule description"])
        = false ∧
    lineNames "r9"
      (Event.log [LogArg.str "ERROR", LogArg.str "Unable to update rule description"])
        = false ∧
    (updateRule false (stubClient (some "AccessDenied") none none [])
        "9.9.9.9/32" 0 ruleR1).events
      = [updatingLine ruleR1, Event.revoke (revokeInput ruleR1),
         Event.log [LogArg.str "ERROR", LogArg.str "Unable to revoke existing rule",
           LogArg.str "r1"]] ∧
    lineNames "r1"
      (Event.log [LogArg.str "ERROR", LogArg.str "Unable to revoke existing rule",
        LogArg.str "r1"]) = true := by
  refine ⟨?_, ?_, by decide, by decide, by decide, by decide, by decide, by decide,
    by decide, by decide⟩
  · intro σ client cidr s s1 s2 r e h1 h2
    simp only [updateRule, Bool.false_eq_true, if_false, h1, h2, authorizeErrorLine]
  · intro σ client cidr s s1 s2 s3 r first others e h1 h2 h3
    simp only [updateRule, Bool.false_eq_true, if_false, h1, h2, h3, updateErrorLine]

/-- C10: when every successful authorize answer carries at least one rule no
pass through the loop body panics and the updater, for any rules and either
mode, ends by sending `done`; when revoke succeeds and authorize succeeds with
an empty rule list the index at line 110 is out of range: the updater stops
there in a panic, having issued revoke and authorize but no
update-description, no later rule is handled, `done` is never sent, and the
process exits with the status of a panic, as happens for `r1` followed by
`r2` against a provider answering with an empty list. -/
theorem C10_unguarded_index :
    (∀ (σ : Type) (client : Provider σ),
      (∀ s0 inp resp s1, client.authorize s0 inp = (Except.ok resp, s1) →
        resp.SecurityGroupRules ≠ []) →
      ∀ (dryRun : Bool) (cidr : String) (s : σ) (rules : List SecurityGroupRule),
        (∀ r, (updateRule dryRun client cidr s r).panicked = false) ∧
        (sgRuleUpdater dryRun client cidr true s rules).outcome = UpdaterOutcome.done) ∧
    (∀ (σ : Type) (client : Provider σ) (cidr : String) (closed : Bool) (s s1 s2 : σ)
        (r : SecurityGroupRule) (later : List SecurityGroupRule)
        (resp : AuthorizeSecurityGroupIngressOutput),
      client.revoke s (revokeInput r) = (Except.ok (), s1) →
      client.authorize s1 (authorizeInput r cidr) = (Except.ok resp, s2) →
      resp.SecurityGroupRules = [] →
      (sgRuleUpdater false client cidr closed s (r :: later)).outcome
        = UpdaterOutcome.panicked ∧
      (sgRuleUpdater false client cidr closed s (r :: later)).events
        = [updatingLine r, Event.revoke (revokeInput r), revokedLine r,
           Event.authorize (authorizeInput r cidr)] ∧
      (sgRuleUpdater false client cidr closed s (r :: later)).state = s2) ∧
    (sgRuleUpdater false (stubClient none none none []) "9.9.9.9/32" true 0
        [ruleR1, ruleR2]).outcome = UpdaterOutcome.panicked ∧
    (sgRuleUpdater false (stubClient none none none []) "9.9.9.9/32" true 0
        [ruleR1, ruleR2]).events
      = [updatingLine ruleR1, Event.revoke (revokeInput ruleR1), revokedLine ruleR1,
         Event.authorize (authorizeInput ruleR1 "9.9.9.9/32")] ∧
    (main { sgId := "sg-1", ruleContains := "ssh" }
      { http := HttpOutcome.response 200 (BodyRead.mk "9.9.9.9" none),
        configError := none, pages := [Except.ok [ruleR1, ruleR2]],
        client := stubClient none none none [], init := 0 }).exit = Exit.panic := by
  refine ⟨?_, ?_, by decide, by decide, by decide⟩
  · intro σ client hresp dryRun cidr s rules
    exact ⟨fun r => updateRule_total dryRun client cidr s r hresp,
      (updater_total dryRun client cidr hresp rules s).1⟩
  · intro σ client cidr closed s s1 s2 r later resp h1 h2 h3
    have hev : updateRule false client cidr s r
        = { events := [updatingLine r, Event.revoke (revokeInput r), revokedLine r,
              Event.authorize (authorizeInput r cidr)],
            state := s2, panicked := true } := by
      simp only [updateRule, Bool.false_eq_true, if_false, h1, h2, h3]
    simp only [sgRuleUpdater, hev, if_true, and_self]

/-! ## The end-to-end scenario of the specification -/

/-- Group `sg-1` holds `r1` ("home-ssh") and `r2` ("office-ssh"), the prefix
is "home" and the public IP "9.9.9.9": only `r1` is sent; it is revoked, a
rule for tcp 22-22 from "9.9.9.9/32" is authorized, and the description of the
new rule is set to "home-ssh"; the run exits with status zero. -/
theorem scenario_end_to_end :
    main { sgId := "sg-1", ruleStartsWith := "home" }
      { http := HttpOutcome.response 200 (BodyRead.mk "9.9.9.9" none),
        configError := none, pages := [Except.ok [ruleR1, ruleR2]],
        client := stubClient none none none [ruleNew], init := 0 }
    = { exit := Exit.zero,
        mainEvents := [Event.log [LogArg.str "Public IP:", LogArg.str "9.9.9.9"],
          Event.nextPage, Event.send ruleR1, Event.close],
        workerEvents := [updatingLine ruleR1,
          Event.revoke { GroupId := some "sg-1", SecurityGroupRuleIds := ["r1"] },
          revokedLine ruleR1,
          Event.authorize
            { GroupId := some "sg-1", IpProtocol := some "tcp", FromPort := some 22,
              ToPort := some 22, CidrIp := some "9.9.9.9/32" },
          authorizedLine "9.9.9.9/32" (some "r9"),
          Event.updateDescriptions
            { GroupId := some "sg-1",
              SecurityGroupRuleDescriptions :=
                [{ SecurityGroupRuleId := some "r9", Description := some "home-ssh" }] },
          updatedLine (some "r9"), Event.done],
        state := 3 } := by
  rfl

/-! ## Runs in which the updating task panics -/

/-- Pages `[r1]`, `[r2]`, `[r1]`, the substring "ssh" and a provider whose
authorize answers with an empty list: the updater panics on `r1`, the scanning
task gets no further than the send of `r2`, so it fetches at most two pages
and never closes the channel, whatever the schedule. -/
theorem panic_cuts_scan (sch : Schedule) :
    (main { sgId := "sg-1", ruleContains := "ssh" }
      { http := HttpOutcome.response 200 (BodyRead.mk "9.9.9.9" none),
        configError := none,
        pages := [Except.ok [ruleR1], Except.ok [ruleR2], Except.ok [ruleR1]],
        client := stubClient none none none [], init := 0, schedule := sch }).exit
      = Exit.panic ∧
    (main { sgId := "sg-1", ruleContains := "ssh" }
      { http := HttpOutcome.response 200 (BodyRead.mk "9.9.9.9" none),
        configError := none,
        pages := [Except.ok [ruleR1], Except.ok [ruleR2], Except.ok [ruleR1]],
        client := stubClient none none none [], init := 0, schedule := sch }).mainEvents
      = Event.log [LogArg.str "Public IP:", LogArg.str "9.9.9.9"]
        :: [Event.nextPage, Event.send ruleR1, Event.nextPage].take (3 - min sch.lag 1) :=
  ⟨rfl, rfl⟩

/-- A page holding `r1`, then a failing fetch, and a provider whose authorize
answers with an empty list: the `log.Fatal` of the scanning task and the panic
of the updating task are both due, and the schedule decides which ends the
process. -/
theorem fatal_races_panic (lag : Nat) :
    (main { sgId := "sg-1", ruleContains := "ssh" }
      { http := HttpOutcome.response 200 (BodyRead.mk "9.9.9.9" none),
        configError := none, pages := [Except.ok [ruleR1], Except.error "boom"],
        client := stubClient none none none [], init := 0,
        schedule := { fatalFirst := true, lag := lag } }).exit = Exit.fatal "boom" ∧
    (main { sgId := "sg-1", ruleContains := "ssh" }
      { http := HttpOutcome.response 200 (BodyRead.mk "9.9.9.9" none),
        configError := none, pages := [Except.ok [ruleR1], Except.error "boom"],
        client := stubClient none none none [], init := 0,
        schedule := { fatalFirst := false, lag := lag } }).exit = Exit.panic :=
  ⟨rfl, rfl⟩

end SgRule
